import Mathlib

/-!
Verification of the PocketProfits conversational finance assistant.

The development shallowly embeds the session/state-machine layer of the
repository: the quote cache (`data_handler.py`), the movers ranking
(`data_handler.get_top_movers`), the response sanitizer/formatter
(`ai_analyst.format_ai_analysis`), the analysis narrator result shapes
(`ai_analyst.get_step*_analysis`), and the per-user conversation state
machine (`main.py`).  External collaborators (the messaging transport, the
market-data source and the language model) are modelled as oracle
parameters supplying their outcomes; every outbound interaction with a
collaborator is recorded as an explicit effect so that claims about which
calls are (or are not) issued can be stated and proved.

Machine text is modelled as `List Char` (Python `str` is a sequence of
code points, as is `String.data` here); clock readings are integers
(seconds); market percentages are rationals.
-/

namespace PocketProfits

/-- A single cached quote as built by `get_cached_market_data`
(src/data_handler.py): price, absolute change, percent change and the
exchange timestamp (all values rounded upstream; modelled as exact
rationals). -/
structure Quote where
  price : ℚ
  change : ℚ
  change_percent : ℚ
  timestamp : ℤ
  deriving Repr, DecidableEq

/-- The snapshot held by the quote cache: an insertion-ordered mapping
from ticker symbol to quote (a Python `dict`). -/
abbrev MarketData := List (String × Quote)

/-- The process-wide `_market_cache` dictionary of src/data_handler.py:
an optional snapshot and the timestamp of the last successful batch
fetch.  (`cache_duration` is a constant in the source and is modelled as
the constant `cache_duration` below.) -/
structure MarketCache where
  data : Option MarketData
  last_updated : Option ℤ
  deriving Repr, DecidableEq

/-- `datetime.timedelta(minutes=5)`, in seconds. -/
def cache_duration : ℤ := 5 * 60

/-- Outcome of one upstream batch quote request (the `requests.get` call
plus JSON processing): either a fresh snapshot or an exception caught by
the surrounding `try`. -/
inductive FetchOutcome where
  | ok (d : MarketData)
  | err (e : String)
  deriving Repr, DecidableEq

/-- Result of one call to `get_cached_market_data`: the returned value
(the snapshot, or the `{'error': ...}` dictionary modelled as
`Except.error`), the cache state after the call, and how many upstream
batch requests the call issued. -/
structure CacheReadResult where
  result : Except String MarketData
  cache : MarketCache
  upstreamCalls : ℕ
  deriving Repr

/-- The fetch path of `get_cached_market_data` (src/data_handler.py,
lines 35-68): issue one upstream request; on success store the snapshot
and the fetch-completion time and return the snapshot; on any exception
return an error value and leave the cache untouched. -/
def refreshCache (cache : MarketCache) (fetchTime : ℤ) (upstream : FetchOutcome) :
    CacheReadResult :=
  match upstream with
  | .ok d => ⟨.ok d, ⟨some d, some fetchTime⟩, 1⟩
  | .err e => ⟨.error e, cache, 1⟩

/-- `get_cached_market_data` (src/data_handler.py, lines 14-68).  `now` is
the clock reading at entry; `fetchTime` is the (slightly later) clock
reading taken when a successful fetch stores `last_updated`; `upstream`
is the oracle for the batch request issued if the cache is invalid.  The
cache is served when both `data` and `last_updated` are set and the
snapshot is younger than `cache_duration`. -/
def get_cached_market_data (cache : MarketCache) (now fetchTime : ℤ)
    (upstream : FetchOutcome) : CacheReadResult :=
  match cache.data, cache.last_updated with
  | some d, some t =>
    if now - t < cache_duration then ⟨.ok d, cache, 0⟩
    else refreshCache cache fetchTime upstream
  | some _, none => refreshCache cache fetchTime upstream
  | none, _ => refreshCache cache fetchTime upstream

/-- The cache-validity test of src/data_handler.py lines 20-22, as a
standalone predicate. -/
def cacheValid (cache : MarketCache) (now : ℤ) : Bool :=
  match cache.data, cache.last_updated with
  | some _, some t => decide (now - t < cache_duration)
  | _, _ => false

/-- A read with a valid cache serves the stored snapshot. -/
theorem cache_read_hit (c : MarketCache) (now ft : ℤ) (u : FetchOutcome)
    (d : MarketData) (t : ℤ) (hd : c.data = some d) (ht : c.last_updated = some t)
    (hlt : now - t < cache_duration) :
    get_cached_market_data c now ft u = ⟨.ok d, c, 0⟩ := by
  obtain ⟨cd, cl⟩ := c
  cases hd; cases ht
  simp [get_cached_market_data, hlt]

/-- A read with an invalid cache takes the refresh path. -/
theorem cache_read_refresh (c : MarketCache) (now ft : ℤ) (u : FetchOutcome)
    (hval : cacheValid c now = false) :
    get_cached_market_data c now ft u = refreshCache c ft u := by
  obtain ⟨cd, cl⟩ := c
  cases cd with
  | none => rfl
  | some d =>
    cases cl with
    | none => rfl
    | some t =>
      simp only [cacheValid, decide_eq_false_iff_not, not_lt] at hval
      simp [get_cached_market_data, not_lt.2 hval]

/-- Claim C1: a read of the quote cache made while the cached snapshot is
younger than the 5-minute TTL returns that snapshot, issues no upstream
batch call and leaves the cache unchanged; a read made when the cache is
empty or stale issues exactly one upstream batch call (and every read
issues at most one); when the upstream call fails the read returns an
error value and leaves both the snapshot and the last-updated timestamp
exactly as they were; and two reads the second of which falls within the
TTL window of the first successful read issue at most one upstream call
between them. -/
theorem claim_C1_quote_cache :
    (∀ c now ft u d t, c.data = some d → c.last_updated = some t →
      now - t < cache_duration →
      get_cached_market_data c now ft u = ⟨.ok d, c, 0⟩) ∧
    (∀ c now ft u, cacheValid c now = false →
      (get_cached_market_data c now ft u).upstreamCalls = 1) ∧
    (∀ c now ft u, (get_cached_market_data c now ft u).upstreamCalls ≤ 1) ∧
    (∀ c now ft e, cacheValid c now = false →
      get_cached_market_data c now ft (.err e) = ⟨.error e, c, 1⟩) ∧
    (∀ c t₁ ft₁ u₁ t₂ ft₂ u₂ d lu,
      (get_cached_market_data c t₁ ft₁ u₁).result = .ok d →
      (get_cached_market_data c t₁ ft₁ u₁).cache.last_updated = some lu →
      t₂ - lu < cache_duration →
      (get_cached_market_data (get_cached_market_data c t₁ ft₁ u₁).cache
          t₂ ft₂ u₂).upstreamCalls = 0 ∧
      (get_cached_market_data c t₁ ft₁ u₁).upstreamCalls +
        (get_cached_market_data (get_cached_market_data c t₁ ft₁ u₁).cache
            t₂ ft₂ u₂).upstreamCalls ≤ 1) := by
  refine ⟨cache_read_hit, ?_, ?_, ?_, ?_⟩
  · intro c now ft u hval
    rw [cache_read_refresh c now ft u hval]
    cases u <;> rfl
  · intro c now ft u
    by_cases hval : cacheValid c now = true
    · obtain ⟨cd, cl⟩ := c
      cases cd with
      | none => simp [cacheValid] at hval
      | some d =>
        cases cl with
        | none => simp [cacheValid] at hval
        | some t =>
          simp only [cacheValid, decide_eq_true_eq] at hval
          rw [cache_read_hit ⟨some d, some t⟩ now ft u d t rfl rfl hval]
          exact Nat.zero_le 1
    · rw [cache_read_refresh c now ft u (by simpa using hval)]
      cases u <;> simp [refreshCache]
  · intro c now ft e hval
    rw [cache_read_refresh c now ft (.err e) hval]
    rfl
  · intro c t₁ ft₁ u₁ t₂ ft₂ u₂ d lu hres hlu hlt
    by_cases hval : cacheValid c t₁ = true
    · obtain ⟨cd, cl⟩ := c
      cases cd with
      | none => simp [cacheValid] at hval
      | some d₀ =>
        cases cl with
        | none => simp [cacheValid] at hval
        | some t₀ =>
          simp only [cacheValid, decide_eq_true_eq] at hval
          rw [cache_read_hit ⟨some d₀, some t₀⟩ t₁ ft₁ u₁ d₀ t₀ rfl rfl hval] at hres hlu ⊢
          have hlu' : t₀ = lu := by simpa using hlu
          subst hlu'
          rw [cache_read_hit ⟨some d₀, some t₀⟩ t₂ ft₂ u₂ d₀ t₀ rfl rfl hlt]
          exact ⟨rfl, by simp⟩
    · rw [cache_read_refresh c t₁ ft₁ u₁ (by simpa using hval)] at hres hlu ⊢
      cases u₁ with
      | err e => simp [refreshCache] at hres
      | ok d₁ =>
        have hlu' : ft₁ = lu := by simpa [refreshCache] using hlu
        subst hlu'
        simp only [refreshCache]
        rw [cache_read_hit ⟨some d₁, some ft₁⟩ t₂ ft₂ u₂ d₁ ft₁ rfl rfl hlt]
        exact ⟨rfl, by simp⟩

/-- Claim C1 witness: concrete instances — a fresh-cache hit at time 100
with a down upstream, a failing refresh from an empty cache, and a
fetch-then-hit pair of reads issuing one upstream call in total. -/
theorem claim_C1_quote_cache_witness :
    get_cached_market_data ⟨some [], some 0⟩ 100 100 (.err "down") =
      ⟨.ok [], ⟨some [], some 0⟩, 0⟩ ∧
    get_cached_market_data ⟨none, none⟩ 0 0 (.err "down") =
      ⟨.error "down", ⟨none, none⟩, 1⟩ ∧
    ((get_cached_market_data (get_cached_market_data ⟨none, none⟩ 0 0 (.ok [])).cache
        100 100 (.err "down")).upstreamCalls = 0 ∧
      (get_cached_market_data ⟨none, none⟩ 0 0 (.ok [])).upstreamCalls +
        (get_cached_market_data (get_cached_market_data ⟨none, none⟩ 0 0 (.ok [])).cache
            100 100 (.err "down")).upstreamCalls ≤ 1) :=
  ⟨claim_C1_quote_cache.1 ⟨some [], some 0⟩ 100 100 (.err "down") [] 0 rfl rfl (by decide),
   claim_C1_quote_cache.2.2.2.1 ⟨none, none⟩ 0 0 "down" (by decide),
   claim_C1_quote_cache.2.2.2.2 ⟨none, none⟩ 0 0 (.ok []) 100 100 (.err "down") [] 0
     rfl rfl (by decide)⟩

/-- Text is modelled as the sequence of code points of a Python `str`. -/
abbrev Chars := List Char

/-- The ASCII fragment of Python's `str.isspace` / regex `\s` (space, tab,
newline, carriage return, vertical tab, form feed). -/
def pyIsSpace (c : Char) : Bool :=
  c = ' ' || c = '\t' || c = '\n' || c = '\r' || c = '\x0b' || c = '\x0c'

/-- Python `str.strip()`: remove leading and trailing whitespace. -/
def pyStrip (l : Chars) : Chars :=
  ((l.dropWhile pyIsSpace).reverse.dropWhile pyIsSpace).reverse

/-- Python `str.upper()` (ASCII fragment). -/
def pyUpper (l : Chars) : Chars := l.map Char.toUpper

/-- The ticker normalization applied by `handle_stock_analysis`
(src/main.py lines 182-185): strip surrounding whitespace, uppercase, and
append the default NSE suffix `.NS` when the symbol ends with neither
`.NS` nor `.BO` and contains no dot at all. -/
def normalizeTicker (input : Chars) : Chars :=
  let t := pyUpper (pyStrip input)
  if !(List.isSuffixOf ".NS".toList t) && !(List.isSuffixOf ".BO".toList t)
      && !(t.contains '.') then
    t ++ ".NS".toList
  else t

/-- Claim C7: the ticker received in analyze mode is stripped of
surrounding whitespace and uppercased, and `.NS` is appended exactly when
the normalized symbol contains no `.`; in particular `RELIANCE` becomes
`RELIANCE.NS` while an explicitly suffixed symbol is passed through
unchanged after uppercasing. -/
theorem claim_C7_ticker_normalization :
    (∀ input : Chars, '.' ∈ pyUpper (pyStrip input) →
      normalizeTicker input = pyUpper (pyStrip input)) ∧
    (∀ input : Chars, '.' ∉ pyUpper (pyStrip input) →
      normalizeTicker input = pyUpper (pyStrip input) ++ ".NS".toList) ∧
    normalizeTicker "RELIANCE".toList = "RELIANCE.NS".toList ∧
    normalizeTicker " tcs.bo ".toList = "TCS.BO".toList := by
  refine ⟨?_, ?_, by decide, by decide⟩
  · intro input hdot
    have hc : (pyUpper (pyStrip input)).contains '.' = true :=
      List.elem_eq_true_of_mem hdot
    have hcond : (!(List.isSuffixOf ".NS".toList (pyUpper (pyStrip input)))
        && !(List.isSuffixOf ".BO".toList (pyUpper (pyStrip input)))
        && !((pyUpper (pyStrip input)).contains '.')) = false := by
      rw [hc]
      simp
    unfold normalizeTicker
    simp only [hcond, Bool.false_eq_true, if_false]
  · intro input hdot
    have hc : (pyUpper (pyStrip input)).contains '.' = false := by
      cases h : (pyUpper (pyStrip input)).contains '.'
      · rfl
      · exact absurd (List.mem_of_elem_eq_true h) hdot
    have hns : List.isSuffixOf ".NS".toList (pyUpper (pyStrip input)) = false := by
      cases h : List.isSuffixOf ".NS".toList (pyUpper (pyStrip input))
      · rfl
      · have hsuf := List.isSuffixOf_iff_suffix.mp h
        exact absurd (hsuf.subset (by decide)) hdot
    have hbo : List.isSuffixOf ".BO".toList (pyUpper (pyStrip input)) = false := by
      cases h : List.isSuffixOf ".BO".toList (pyUpper (pyStrip input))
      · rfl
      · have hsuf := List.isSuffixOf_iff_suffix.mp h
        exact absurd (hsuf.subset (by decide)) hdot
    have hcond : (!(List.isSuffixOf ".NS".toList (pyUpper (pyStrip input)))
        && !(List.isSuffixOf ".BO".toList (pyUpper (pyStrip input)))
        && !((pyUpper (pyStrip input)).contains '.')) = true := by
      simp only [Bool.and_eq_true, Bool.not_eq_true']
      exact ⟨⟨hns, hbo⟩, hc⟩
    unfold normalizeTicker
    simp only [hcond, if_true]

/-- Claim C7 witness: the general clauses applied at the concrete inputs
`" idea "` (no dot — suffix appended) and `"TCS.BO"` (dot — unchanged). -/
theorem claim_C7_ticker_normalization_witness :
    normalizeTicker " idea ".toList = "IDEA.NS".toList ∧
    normalizeTicker "TCS.BO".toList = "TCS.BO".toList :=
  ⟨by rw [claim_C7_ticker_normalization.2.1 " idea ".toList (by decide)]; decide,
   by rw [claim_C7_ticker_normalization.1 "TCS.BO".toList (by decide)]; decide⟩

/-- The fixed Telegram single-message size limit used by the step
handlers of src/main.py. -/
def chunkLimit : ℕ := 4096

/-- The delivery logic shared by `process_ai_analysis_step2`,
`process_ai_analysis_step3` and `process_final_analysis_step`
(src/main.py lines 274-288, 346-360 and 393-407): a formatted text longer
than 4096 characters is sent as the successive slices `text[i:i+4096]`
for `i in range(0, len(text), 4096)`, with the reply keyboard attached
only to the slice for which `i + 4096 >= len(text)`; a shorter text is
sent as a single message carrying the keyboard.  Each returned pair is a
delivered chunk together with whether it carries the keyboard. -/
def sendChunks (text : Chars) : List (Chars × Bool) :=
  if text.length > chunkLimit then
    (List.range' 0 ((text.length + (chunkLimit - 1)) / chunkLimit) chunkLimit).map
      (fun i => ((text.drop i).take chunkLimit, decide (text.length ≤ i + chunkLimit)))
  else [(text, true)]

/-- Splicing the fixed-size slices back together recovers the sliced
text. -/
theorem flatten_slices (t : Chars) :
    ∀ (k i : ℕ), t.length ≤ i + chunkLimit * k →
      ((List.range' i k chunkLimit).map
          (fun j => (t.drop j).take chunkLimit)).flatten = t.drop i := by
  intro k
  induction k with
  | zero =>
    intro i h
    simp only [Nat.mul_zero, Nat.add_zero] at h
    simp [List.drop_eq_nil_of_le h]
  | succ k ih =>
    intro i h
    rw [List.range'_succ]
    simp only [List.map_cons, List.flatten_cons]
    rw [Nat.mul_succ] at h
    rw [ih (i + chunkLimit) (by omega)]
    rw [← List.drop_drop, List.take_append_drop]

/-- Claim C5: a formatted text longer than the 4096-character transport
limit is delivered as exactly `ceil(len/4096)` chunks cut on fixed
4096-character boundaries (characterized below by
`4096*(count-1) < len ≤ 4096*count`), reassembling to the original text,
with the next-step keyboard on the last chunk only; a text of length 9000
yields exactly 3 chunks flagged `[false, false, true]`. -/
theorem claim_C5_chunking :
    (∀ t : Chars, t.length > chunkLimit →
      (sendChunks t).length = (t.length + (chunkLimit - 1)) / chunkLimit ∧
      chunkLimit * ((sendChunks t).length - 1) < t.length ∧
      t.length ≤ chunkLimit * (sendChunks t).length) ∧
    (∀ t : Chars, ∀ h : t.length > chunkLimit,
      ∀ j, ∀ hj : j < (sendChunks t).length,
      ((sendChunks t).get ⟨j, hj⟩).1 = (t.drop (chunkLimit * j)).take chunkLimit ∧
      (((sendChunks t).get ⟨j, hj⟩).2 = true ↔ j = (sendChunks t).length - 1)) ∧
    (∀ t : Chars, ((sendChunks t).map Prod.fst).flatten = t) ∧
    (∀ t : Chars, t.length = 9000 →
      (sendChunks t).length = 3 ∧
      (sendChunks t).map Prod.snd = [false, false, true]) := by
  have hcount : ∀ t : Chars, t.length > chunkLimit →
      (sendChunks t).length = (t.length + (chunkLimit - 1)) / chunkLimit := by
    intro t h
    simp [sendChunks, h]
  have hceil : ∀ n : ℕ, n > chunkLimit →
      chunkLimit * ((n + (chunkLimit - 1)) / chunkLimit - 1) < n ∧
      n ≤ chunkLimit * ((n + (chunkLimit - 1)) / chunkLimit) := by
    intro n h
    have hdm := Nat.div_add_mod (n + (chunkLimit - 1)) chunkLimit
    have hmlt : (n + (chunkLimit - 1)) % chunkLimit < chunkLimit :=
      Nat.mod_lt _ (by decide)
    unfold chunkLimit at *
    omega
  refine ⟨fun t h => ⟨hcount t h, ?_, ?_⟩, ?_, ?_, ?_⟩
  · rw [hcount t h]; exact (hceil t.length h).1
  · rw [hcount t h]; exact (hceil t.length h).2
  · intro t h j hj
    have hj' : j < (t.length + (chunkLimit - 1)) / chunkLimit := by
      rw [← hcount t h]; exact hj
    have hget : (sendChunks t).get ⟨j, hj⟩ =
        ((t.drop (0 + chunkLimit * j)).take chunkLimit,
          decide (t.length ≤ 0 + chunkLimit * j + chunkLimit)) := by
      rw [List.get_eq_getElem]
      simp only [sendChunks, if_pos h]
      rw [List.getElem_map, List.getElem_range']
    rw [hget]
    constructor
    · simp
    · have hdm := Nat.div_add_mod (t.length + (chunkLimit - 1)) chunkLimit
      have hmlt : (t.length + (chunkLimit - 1)) % chunkLimit < chunkLimit :=
        Nat.mod_lt _ (by decide)
      rw [hcount t h]
      simp only [Nat.zero_add, decide_eq_true_eq]
      unfold chunkLimit at *
      omega
  · intro t
    by_cases h : t.length > chunkLimit
    · simp only [sendChunks, if_pos h, List.map_map]
      have : (Prod.fst ∘ fun i =>
          ((t.drop i).take chunkLimit, decide (t.length ≤ i + chunkLimit))) =
          fun j => (t.drop j).take chunkLimit := rfl
      rw [this, flatten_slices t _ 0]
      · simp
      · have hdm := Nat.div_add_mod (t.length + (chunkLimit - 1)) chunkLimit
        have hmlt : (t.length + (chunkLimit - 1)) % chunkLimit < chunkLimit :=
          Nat.mod_lt _ (by decide)
        unfold chunkLimit at *
        omega
    · simp [sendChunks, h]
  · intro t h
    have hgt : t.length > chunkLimit := by rw [h]; decide
    have h3 : (t.length + (chunkLimit - 1)) / chunkLimit = 3 := by
      rw [h]; decide
    constructor
    · rw [hcount t hgt, h3]
    · have hflag : (sendChunks t).map Prod.snd =
          (List.range' 0 3 chunkLimit).map (fun i => decide (t.length ≤ i + chunkLimit)) := by
        simp only [sendChunks, if_pos hgt, h3, List.map_map]
        rfl
      rw [hflag, h]
      decide

/-- `SENSEX_STOCKS` from src/config.py: the fixed constituent list scanned
by `get_top_movers`. -/
def SENSEX_STOCKS : List String :=
  ["RELIANCE.NS", "TCS.NS", "HDFCBANK.NS", "INFY.NS", "ICICIBANK.NS",
   "HINDUNILVR.NS", "ADANIPORTS.NS", "KOTAKBANK.NS", "BAJFINANCE.NS", "SBIN.NS",
   "BHARTIARTL.NS", "ITC.NS", "AXISBANK.NS", "ASIANPAINT.NS", "MARUTI.NS",
   "HCLTECH.NS", "LT.NS", "SUNPHARMA.NS", "ULTRACEMCO.NS", "TITAN.NS",
   "BAJAJFINSV.NS", "NTPC.NS", "POWERGRID.NS", "TATASTEEL.NS", "TECHM.NS",
   "TATAMOTORS.NS", "M&M.NS", "INDUSINDBK.NS", "NESTLEIND.NS", "WIPRO.NS"]

/-- One entry of the `changes` dictionary built by `get_top_movers`
(src/data_handler.py lines 163-169). -/
structure MoverEntry where
  symbol : String
  price : ℚ
  change : ℚ
  change_percent : ℚ
  deriving Repr, DecidableEq

/-- The advance/decline/unchanged counters of `get_top_movers`. -/
structure Breadth where
  advances : ℕ
  declines : ℕ
  unchanged : ℕ
  deriving Repr, DecidableEq

/-- The `±0.1` percent dead zone used for breadth classification. -/
def breadthThreshold : ℚ := mkRat 1 10

/-- One breadth update (src/data_handler.py lines 171-177): an advance if
the percent change exceeds `0.1`, a decline if below `-0.1`, otherwise
unchanged. -/
def breadthUpdate (b : Breadth) (cp : ℚ) : Breadth :=
  if cp > breadthThreshold then { b with advances := b.advances + 1 }
  else if cp < -breadthThreshold then { b with declines := b.declines + 1 }
  else { b with unchanged := b.unchanged + 1 }

/-- Python dictionary assignment `d[k] = v`: overwrite in place when the
key exists, else append. -/
def dictInsert (k : String) (v : MoverEntry) :
    List (String × MoverEntry) → List (String × MoverEntry)
  | [] => [(k, v)]
  | (k₀, v₀) :: rest =>
    if k₀ = k then (k₀, v) :: rest else (k₀, v₀) :: dictInsert k v rest

/-- Python `str.replace`: replace every non-overlapping occurrence of
`pattern`, scanning left to right.  Structured on fuel (one unit per
consumed character) so that it evaluates; `pyReplace` supplies enough
fuel for the whole input. -/
def pyReplaceFuel (pattern repl : Chars) : ℕ → Chars → Chars
  | 0, s => s
  | fuel + 1, s =>
    match s with
    | [] => []
    | c :: rest =>
      if pattern.isPrefixOf (c :: rest) && !pattern.isEmpty then
        repl ++ pyReplaceFuel pattern repl fuel ((c :: rest).drop pattern.length)
      else c :: pyReplaceFuel pattern repl fuel rest

/-- Python `s.replace(pattern, repl)` on strings. -/
def pyReplace (s pattern repl : String) : String :=
  ⟨pyReplaceFuel pattern.toList repl.toList s.toList.length s.toList⟩

/-- The body of the `for stock in SENSEX_STOCKS` loop of `get_top_movers`:
for a constituent present in the snapshot, record its entry under the
company name (the symbol with every `.NS` removed) and update the breadth
counters; a constituent missing from the snapshot is skipped. -/
def moversStep (data : MarketData) (acc : List (String × MoverEntry) × Breadth)
    (stock : String) : List (String × MoverEntry) × Breadth :=
  match data.lookup stock with
  | some q =>
    (dictInsert (pyReplace stock ".NS" "") ⟨stock, q.price, q.change, q.change_percent⟩ acc.1,
     breadthUpdate acc.2 q.change_percent)
  | none => acc

/-- The full constituent scan of `get_top_movers`. -/
def moversScan (data : MarketData) : List (String × MoverEntry) × Breadth :=
  SENSEX_STOCKS.foldl (moversStep data) ([], ⟨0, 0, 0⟩)

/-- The sort key of `sorted(changes.items(), key=lambda x: x[1]['change_percent'])`. -/
def moverLe (a b : String × MoverEntry) : Bool :=
  decide (a.2.change_percent ≤ b.2.change_percent)

/-- Stable insertion into an ascending list: the new element goes after
every existing element whose key is less than or equal to its own. -/
def sortedInsert (le : α → α → Bool) (a : α) : List α → List α
  | [] => [a]
  | b :: bs => if le b a then b :: sortedInsert le a bs else a :: b :: bs

/-- Python's `sorted`: stable, ascending by key.  Elements are inserted
in their original order, each landing after previously inserted equals. -/
def pySorted (le : α → α → Bool) (l : List α) : List α :=
  l.foldl (fun acc a => sortedInsert le a acc) []

/-- The sorted `changes` items of `get_top_movers`. -/
def sorted_changes (data : MarketData) : List (String × MoverEntry) :=
  pySorted moverLe (moversScan data).1

/-- The value returned by a successful `get_top_movers` call. -/
structure TopMovers where
  gainers : List (String × MoverEntry)
  losers : List (String × MoverEntry)
  market_breadth : Breadth
  deriving Repr, DecidableEq

/-- `get_top_movers` (src/data_handler.py lines 142-197), taking the
outcome of its `get_cached_market_data()` call as input: on a cache error
the error is passed through; otherwise the constituents are scanned,
sorted ascending by percent change, and the first three are returned as
losers, the last three (reversed, highest first) as gainers, together
with the breadth counters. -/
def get_top_movers (cached : Except String MarketData) : Except String TopMovers :=
  match cached with
  | .error e => .error e
  | .ok data =>
    let s := sorted_changes data
    .ok ⟨(s.drop (s.length - 3)).reverse, s.take 3, (moversScan data).2⟩

theorem sortedInsert_perm (le : α → α → Bool) (a : α) (l : List α) :
    List.Perm (sortedInsert le a l) (a :: l) := by
  induction l with
  | nil => rfl
  | cons b bs ih =>
    unfold sortedInsert
    split
    · exact ((ih.cons b).trans (List.Perm.swap a b bs))
    · rfl

theorem pySorted_perm (le : α → α → Bool) (l : List α) :
    List.Perm (pySorted le l) l := by
  suffices h : ∀ acc : List α,
      List.Perm (l.foldl (fun acc a => sortedInsert le a acc) acc) (acc ++ l) by
    simpa using h []
  induction l with
  | nil => intro acc; simp
  | cons x xs ih =>
    intro acc
    simp only [List.foldl_cons]
    refine (ih (sortedInsert le x acc)).trans ?_
    refine (List.Perm.append_right xs (sortedInsert_perm le x acc)).trans ?_
    simpa using (@List.perm_middle _ x acc xs).symm

theorem sortedInsert_pairwise (le : α → α → Bool)
    (htot : ∀ a b, le a b = true ∨ le b a = true)
    (htrans : ∀ a b c, le a b = true → le b c = true → le a c = true)
    (a : α) (l : List α) (hl : l.Pairwise (fun x y => le x y = true)) :
    (sortedInsert le a l).Pairwise (fun x y => le x y = true) := by
  induction l with
  | nil => simp [sortedInsert]
  | cons b bs ih =>
    rw [List.pairwise_cons] at hl
    unfold sortedInsert
    split
    · rename_i hba
      rw [List.pairwise_cons]
      refine ⟨?_, ih hl.2⟩
      intro x hx
      rcases List.mem_cons.mp ((sortedInsert_perm le a bs).mem_iff.mp hx) with hxa | hxbs
      · subst hxa; exact hba
      · exact hl.1 x hxbs
    · rename_i hba
      have hab : le a b = true := by
        rcases htot a b with h | h
        · exact h
        · exact absurd h hba
      rw [List.pairwise_cons]
      refine ⟨?_, List.pairwise_cons.mpr hl⟩
      intro x hx
      rcases List.mem_cons.mp hx with hxb | hxbs
      · subst hxb; exact hab
      · exact htrans a b x hab (hl.1 x hxbs)

theorem pySorted_pairwise (le : α → α → Bool)
    (htot : ∀ a b, le a b = true ∨ le b a = true)
    (htrans : ∀ a b c, le a b = true → le b c = true → le a c = true)
    (l : List α) : (pySorted le l).Pairwise (fun x y => le x y = true) := by
  suffices h : ∀ acc : List α, acc.Pairwise (fun x y => le x y = true) →
      (l.foldl (fun acc a => sortedInsert le a acc) acc).Pairwise
        (fun x y => le x y = true) by
    exact h [] (by simp)
  induction l with
  | nil => intro acc hacc; simpa using hacc
  | cons x xs ih =>
    intro acc hacc
    simp only [List.foldl_cons]
    exact ih _ (sortedInsert_pairwise le htot htrans x acc hacc)

theorem moverLe_total (a b : String × MoverEntry) :
    moverLe a b = true ∨ moverLe b a = true := by
  simp only [moverLe, decide_eq_true_eq]
  exact le_total _ _

theorem moverLe_trans (a b c : String × MoverEntry)
    (hab : moverLe a b = true) (hbc : moverLe b c = true) : moverLe a c = true := by
  simp only [moverLe, decide_eq_true_eq] at *
  exact le_trans hab hbc

/-- The quotes of the constituents present in the snapshot, in scan
order. -/
def presentQuotes (data : MarketData) : List Quote :=
  SENSEX_STOCKS.filterMap (fun stock => data.lookup stock)

/-- A constituent counted as advancing: percent change above `0.1`. -/
def advancesP (q : Quote) : Bool := decide (q.change_percent > breadthThreshold)

/-- A constituent counted as declining: percent change below `-0.1`. -/
def declinesP (q : Quote) : Bool := decide (q.change_percent < -breadthThreshold)

/-- A constituent counted as unchanged: inside the dead zone. -/
def unchangedP (q : Quote) : Bool := !(advancesP q) && !(declinesP q)

theorem foldl_breadth (data : MarketData) :
    ∀ (stocks : List String) (acc : List (String × MoverEntry) × Breadth),
      (stocks.foldl (moversStep data) acc).2 =
        ⟨acc.2.advances + (stocks.filterMap (fun s => data.lookup s)).countP advancesP,
         acc.2.declines + (stocks.filterMap (fun s => data.lookup s)).countP declinesP,
         acc.2.unchanged + (stocks.filterMap (fun s => data.lookup s)).countP unchangedP⟩ := by
  intro stocks
  induction stocks with
  | nil => intro acc; simp
  | cons s ss ih =>
    intro acc
    simp only [List.foldl_cons, List.filterMap_cons]
    cases hq : data.lookup s with
    | none => simp only [moversStep, hq]; rw [ih]
    | some q =>
      simp only [moversStep, hq]
      rw [ih]
      by_cases hgt : q.change_percent > breadthThreshold
      · have h1 : advancesP q = true := by simp [advancesP, hgt]
        have h2 : declinesP q = false := by
          simp only [declinesP, decide_eq_false_iff_not, not_lt]
          have h0 : (0 : ℚ) < breadthThreshold := by decide
          linarith
        simp [breadthUpdate, hgt, List.countP_cons, h1, h2, unchangedP]
        omega
      · by_cases hlt : q.change_percent < -breadthThreshold
        · have h1 : advancesP q = false := by simp [advancesP, hgt]
          have h2 : declinesP q = true := by simp [declinesP, hlt]
          simp [breadthUpdate, hgt, hlt, List.countP_cons, h1, h2, unchangedP]
          omega
        · have h1 : advancesP q = false := by simp [advancesP, hgt]
          have h2 : declinesP q = false := by simp [declinesP, hlt]
          simp [breadthUpdate, hgt, hlt, List.countP_cons, h1, h2, unchangedP]
          omega

/-- The six-constituent snapshot of the spec's worked example: percent
changes `[-2, -1, 0, 1, 2, 3]` spread over six SENSEX symbols. -/
def exampleSnapshot : MarketData :=
  [("RELIANCE.NS", ⟨100, 0, 3, 0⟩), ("TCS.NS", ⟨100, 0, -2, 0⟩),
   ("HDFCBANK.NS", ⟨100, 0, 1, 0⟩), ("INFY.NS", ⟨100, 0, 0, 0⟩),
   ("ICICIBANK.NS", ⟨100, 0, 2, 0⟩), ("HINDUNILVR.NS", ⟨100, 0, -1, 0⟩)]

/-- A snapshot whose single present constituent moved by `0.05` percent. -/
def tinyMoveSnapshot : MarketData := [("RELIANCE.NS", ⟨100, 0, mkRat 1 20, 0⟩)]

/-- Claim C4: `get_top_movers` sorts the present constituents ascending
by percent change (the sorted list is an ascending permutation of the
scanned entries); the losers are the three lowest in ascending order and
the gainers the three highest in descending order; breadth counts use the
`±0.1` dead zone (advance iff above `0.1`, decline iff below `-0.1`,
otherwise unchanged — so a `0.05` move counts as unchanged); and on the
worked example the gainers carry percent changes `3, 2, 1`, the losers
`-2, -1, 0`, with breadth `3/2/1`. -/
theorem claim_C4_top_movers :
    (∀ data : MarketData,
      (sorted_changes data).Pairwise (fun a b => moverLe a b = true) ∧
      List.Perm (sorted_changes data) (moversScan data).1) ∧
    (∀ data tm, get_top_movers (.ok data) = .ok tm →
      tm.losers = (sorted_changes data).take 3 ∧
      tm.gainers = ((sorted_changes data).drop ((sorted_changes data).length - 3)).reverse ∧
      tm.losers.Pairwise (fun a b => moverLe a b = true) ∧
      tm.gainers.Pairwise (fun a b => moverLe b a = true) ∧
      tm.losers.length = min 3 (sorted_changes data).length ∧
      tm.gainers.length = min 3 (sorted_changes data).length ∧
      (∀ x ∈ tm.losers, ∀ y ∈ (sorted_changes data).drop 3, moverLe x y = true) ∧
      (∀ x ∈ tm.gainers,
        ∀ y ∈ (sorted_changes data).take ((sorted_changes data).length - 3),
        moverLe y x = true)) ∧
    (∀ data : MarketData,
      (moversScan data).2 =
        ⟨(presentQuotes data).countP advancesP,
         (presentQuotes data).countP declinesP,
         (presentQuotes data).countP unchangedP⟩) ∧
    get_top_movers (.ok exampleSnapshot) = .ok
      ⟨[("RELIANCE", ⟨"RELIANCE.NS", 100, 0, 3⟩), ("ICICIBANK", ⟨"ICICIBANK.NS", 100, 0, 2⟩),
        ("HDFCBANK", ⟨"HDFCBANK.NS", 100, 0, 1⟩)],
       [("TCS", ⟨"TCS.NS", 100, 0, -2⟩), ("HINDUNILVR", ⟨"HINDUNILVR.NS", 100, 0, -1⟩),
        ("INFY", ⟨"INFY.NS", 100, 0, 0⟩)],
       ⟨3, 2, 1⟩⟩ ∧
    (moversScan tinyMoveSnapshot).2 = ⟨0, 0, 1⟩ ∧
    (∀ e, get_top_movers (.error e) = .error e) := by
  have hsorted : ∀ data : MarketData,
      (sorted_changes data).Pairwise (fun a b => moverLe a b = true) :=
    fun data => pySorted_pairwise moverLe moverLe_total moverLe_trans _
  refine ⟨fun data => ⟨hsorted data, pySorted_perm _ _⟩, ?_, ?_, by rfl, by decide,
    fun e => rfl⟩
  · intro data tm htm
    have htm' : tm = ⟨((sorted_changes data).drop ((sorted_changes data).length - 3)).reverse,
        (sorted_changes data).take 3, (moversScan data).2⟩ := by
      simpa [get_top_movers] using htm.symm
    subst htm'
    set s := sorted_changes data with hs
    refine ⟨rfl, rfl, ?_, ?_, ?_, ?_, ?_, ?_⟩
    · exact (hsorted data).sublist (List.take_sublist 3 s)
    · rw [List.pairwise_reverse]
      exact (hsorted data).sublist (List.drop_sublist (s.length - 3) s)
    · rw [List.length_take]
    · rw [List.length_reverse, List.length_drop]
      omega
    · intro x hx y hy
      have hsplit := (@List.pairwise_append _ _ (s.take 3) (s.drop 3)).mp
        (by rw [List.take_append_drop]; exact hsorted data)
      exact hsplit.2.2 x hx y hy
    · intro x hx y hy
      have hsplit := (@List.pairwise_append _ _ (s.take (s.length - 3))
          (s.drop (s.length - 3))).mp
        (by rw [List.take_append_drop]; exact hsorted data)
      exact hsplit.2.2 y hy x (List.mem_reverse.mp hx)
  · intro data
    have h := foldl_breadth data SENSEX_STOCKS ([], ⟨0, 0, 0⟩)
    simpa [moversScan, presentQuotes] using h

/-- Claim C4 witness: the ranking clauses instantiated on the worked
six-constituent snapshot. -/
theorem claim_C4_top_movers_witness :
    ([("TCS", ⟨"TCS.NS", 100, 0, -2⟩), ("HINDUNILVR", ⟨"HINDUNILVR.NS", 100, 0, -1⟩),
      ("INFY", (⟨"INFY.NS", 100, 0, 0⟩ : MoverEntry))] : List (String × MoverEntry)) =
        (sorted_changes exampleSnapshot).take 3 ∧
    ([("RELIANCE", ⟨"RELIANCE.NS", 100, 0, 3⟩), ("ICICIBANK", ⟨"ICICIBANK.NS", 100, 0, 2⟩),
      ("HDFCBANK", (⟨"HDFCBANK.NS", 100, 0, 1⟩ : MoverEntry))] : List (String × MoverEntry)).Pairwise
        (fun a b => moverLe b a = true) := by
  have h := claim_C4_top_movers.2.1 exampleSnapshot
    ⟨[("RELIANCE", ⟨"RELIANCE.NS", 100, 0, 3⟩), ("ICICIBANK", ⟨"ICICIBANK.NS", 100, 0, 2⟩),
      ("HDFCBANK", ⟨"HDFCBANK.NS", 100, 0, 1⟩)],
     [("TCS", ⟨"TCS.NS", 100, 0, -2⟩), ("HINDUNILVR", ⟨"HINDUNILVR.NS", 100, 0, -1⟩),
      ("INFY", ⟨"INFY.NS", 100, 0, 0⟩)],
     ⟨3, 2, 1⟩⟩ (by rfl)
  exact ⟨h.1, h.2.2.2.1⟩

/-- Claim C5 witness: the 9000-character clause applied to a concrete
9000-character text. -/
theorem claim_C5_chunking_witness :
    (sendChunks (List.replicate 9000 'a')).length = 3 ∧
    (sendChunks (List.replicate 9000 'a')).map Prod.snd = [false, false, true] :=
  claim_C5_chunking.2.2.2 (List.replicate 9000 'a') (List.length_replicate 9000 'a')

/-- The backtick character (code point 96). -/
def backtickChar : Char := Char.ofNat 96

/-- Tagged result of one narration call: the `AnalysisStepResult`
dictionary of src/ai_analyst.py.  An `Option` field models presence of
the corresponding dictionary key. -/
structure StepResult where
  success : Bool
  analysis : Option Chars
  error : Option Chars
  stock_name : Option Chars
  ticker : Option Chars
  deriving Repr, DecidableEq

/-- Bracket normalization of the formatter: `[` becomes `(`, `]` becomes
`)` (src/ai_analyst.py line 305). -/
def bracketNormalize (c : Char) : Char :=
  if c = '[' then '(' else if c = ']' then ')' else c

/-- The aggressive sanitization pass of `format_ai_analysis`
(src/ai_analyst.py lines 299-305): drop every backtick, asterisk and
underscore, then normalize square brackets to parentheses. -/
def sanitizeChars (l : Chars) : Chars :=
  ((((l.filter (fun c => c ≠ backtickChar)).filter (fun c => c ≠ '*')).filter
      (fun c => c ≠ '_')).map bracketNormalize)

/-- The ASCII fragment of the regex word class `\w` (and of `[\d\w]`,
since digits are word characters). -/
def isWordChar (c : Char) : Bool := c.isAlpha || c.isDigit || c = '_'

/-- Length of the run of characters satisfying `p` at the head of `l`. -/
def runLen (p : Char → Bool) (l : Chars) : ℕ := (l.takeWhile p).length

/-- Greedy count of leading `,ddd` groups, for the `(?:,\d{3})*` part of
the number regex. -/
def commaGroups : Chars → ℕ
  | ',' :: d₁ :: d₂ :: d₃ :: rest =>
    if d₁.isDigit && d₂.isDigit && d₃.isDigit then commaGroups rest + 1 else 0
  | _ => 0

/-- Candidate consumed lengths for the optional fraction `(?:\.\d+)?`,
most preferred first.  A shortened fraction always leaves a digit
adjacent to the final word boundary, so only the full fraction and the
absent fraction are viable. -/
def fracLens (s : Chars) : List ℕ :=
  match s with
  | '.' :: ds =>
    let k := runLen Char.isDigit ds
    if k ≥ 1 then [1 + k, 0] else [0]
  | _ => [0]

/-- The descending list `[n, n-1, ..., 0]`. -/
def downFrom : ℕ → List ℕ
  | 0 => [0]
  | n + 1 => (n + 1) :: downFrom n

/-- Candidate total lengths for the first regex alternative
`\b\d{1,3}(?:,\d{3})*(?:\.\d+)?\b` at the current position, in the
backtracking engine's preference order: more digits first, then more
comma groups, then a present fraction. -/
def alt1Lens (s : Chars) : List ℕ :=
  ((downFrom (min 3 (runLen Char.isDigit s))).filter (fun k => k ≠ 0)).flatMap
    (fun k =>
      let s₁ := s.drop k
      (downFrom (commaGroups s₁)).flatMap (fun r =>
        (fracLens (s₁.drop (4 * r))).map (fun f => k + 4 * r + f)))

/-- Candidate total lengths for the second alternative
`\b\d+(?:\.\d+)?\b`. -/
def alt2Lens (s : Chars) : List ℕ :=
  ((downFrom (runLen Char.isDigit s)).filter (fun n => n ≠ 0)).flatMap
    (fun n => (fracLens (s.drop n)).map (fun f => n + f))

/-- The trailing word boundary after a match (every match ends in a
digit): satisfied at end of text or before a non-word character. -/
def boundaryOk : Chars → Bool
  | [] => true
  | c :: _ => !isWordChar c

/-- Leftmost match of the number pattern at the current position, if
any, returned as its consumed length.  `prev` is the character before
the position (`none` at the start of the text); both alternatives start
with `\b\d`, so a match requires a digit at the position preceded by a
non-word character or the text start. -/
def tryNumberMatch (prev : Option Char) (s : Chars) : Option ℕ :=
  match s with
  | [] => none
  | c :: _ =>
    if c.isDigit && (match prev with | none => true | some p => !isWordChar p) then
      (alt1Lens s ++ alt2Lens s).find? (fun n => boundaryOk (s.drop n))
    else none

/-- The scan of `re.sub(number_pattern, r'*\1*', text)` (src/ai_analyst.py
line 308): walk the text left to right; at each position emit the
bolded match and resume after it, or emit the character and move on.
Fuel is one unit per consumed character. -/
def subNumbersFuel : ℕ → Option Char → Chars → Chars
  | 0, _, s => s
  | _ + 1, _, [] => []
  | fuel + 1, prev, c :: rest =>
    match tryNumberMatch prev (c :: rest) with
    | some n =>
      let m := (c :: rest).take n
      '*' :: (m ++ '*' :: subNumbersFuel fuel (some (m.getLastD c)) ((c :: rest).drop n))
    | none => c :: subNumbersFuel fuel (some c) rest

/-- The full number-bolding substitution. -/
def subNumbers (l : Chars) : Chars := subNumbersFuel l.length none l

/-- Python `text.split('\n')`. -/
def splitOnNl : Chars → List Chars
  | [] => [[]]
  | c :: rest =>
    if c = '\n' then [] :: splitOnNl rest
    else
      match splitOnNl rest with
      | [] => [[c]]
      | l :: ls => (c :: l) :: ls

/-- `'\n'.join(lines)`. -/
def joinNl : List Chars → Chars
  | [] => []
  | [l] => l
  | l :: l' :: ls => l ++ '\n' :: joinNl (l' :: ls)

/-- The fixed heading list `headings_to_bold` of `format_ai_analysis`
(src/ai_analyst.py lines 313-320). -/
def headings_to_bold : List Chars :=
  ["‚úÖ Strengths".toList, "Strengths:".toList,
   "‚ö†Ô∏è Weaknesses".toList, "Weaknesses:".toList,
   "\uf8ffüìä Ratings".toList, "Ratings:".toList,
   "Overall Assessment:".toList, "Key Highlights:".toList, "Analysis:".toList,
   "Summary:".toList, "Fundamental Quality:".toList, "Financial Health:".toList,
   "Overall Stock Quality:".toList, "Stock Data Overview:".toList,
   "Business Summary:".toList]

/-- Python `str.lower()` (ASCII fragment). -/
def charsLower (l : Chars) : Chars := l.map Char.toLower

/-- Boolean prefix test, as in Python `str.startswith`. -/
def startsWithChars : Chars → Chars → Bool
  | [], _ => true
  | _ :: _, [] => false
  | p :: ps, c :: cs => p = c && startsWithChars ps cs

/-- The case-insensitive heading test of the formatter. -/
def headingMatch (line : Chars) : Bool :=
  headings_to_bold.any (fun kw => startsWithChars (charsLower kw) (charsLower line))

/-- The list-marker test `re.match(r"^\s*([\d\w]+[\.\)])\s+", line)`
(src/ai_analyst.py line 335).  `[\d\w]+` is greedy and its run cannot be
shortened (a shorter run leaves a word character where `[\.\)]` must
match), so the maximal run followed by a dot or closing parenthesis and
at least one whitespace character decides the match. -/
def listMarkerMatch (l : Chars) : Bool :=
  let afterSpace := l.dropWhile pyIsSpace
  let run := afterSpace.takeWhile isWordChar
  match afterSpace.drop run.length with
  | c :: c₂ :: _ => !run.isEmpty && (c = '.' || c = ')') && pyIsSpace c₂
  | _ => false

/-- Per-line processing of the formatter (src/ai_analyst.py lines
322-340): a non-blank line that starts with a heading keyword
(case-insensitive) or matches the list-marker pattern is stripped and
bolded; every other line (including blank ones) passes through
unchanged. -/
def processLine (line : Chars) : Chars :=
  let stripped := pyStrip line
  if stripped.isEmpty then line
  else if headingMatch stripped then '*' :: (stripped ++ ['*'])
  else if listMarkerMatch stripped then '*' :: (stripped ++ ['*'])
  else line

/-- The processed analysis body before the length ceiling: sanitize,
re-bold numbers, process lines, rejoin, and pad with one newline on each
side of the stripped text (src/ai_analyst.py lines 299-345). -/
def paddedBody (analysis : Chars) : Chars :=
  '\n' :: (pyStrip (joinNl ((splitOnNl (subNumbers (sanitizeChars analysis))).map
      processLine)) ++ ['\n'])

/-- The length ceiling (src/ai_analyst.py lines 348-349): a body longer
than 3900 characters is cut at 3850 and a trimming marker appended. -/
def formatSuccessBody (analysis : Chars) : Chars :=
  if (paddedBody analysis).length > 3900 then
    (paddedBody analysis).take 3850 ++ "\n... (trimmed for length)".toList
  else paddedBody analysis

/-- The failure branch of `format_ai_analysis` (src/ai_analyst.py lines
290-295): a fixed error template naming the stock when both name and
ticker keys are present. -/
def formatFailure (r : StepResult) : Chars :=
  let errorMsg := r.error.getD "Unknown error.".toList
  let stockInfo :=
    match r.stock_name, r.ticker with
    | some n, some t => " for ".toList ++ n ++ " (".toList ++ t ++ [')']
    | _, _ => []
  "‚ùå *Error*: Could not generate AI analysis".toList ++ stockInfo ++
    ". Details: ".toList ++ errorMsg

/-- `format_ai_analysis` (src/ai_analyst.py lines 280-357). -/
def format_ai_analysis (r : StepResult) : Chars :=
  if r.success = false then formatFailure r
  else
    "\uf8ffüß† *AI Analysis: ".toList ++ r.stock_name.getD "N/A".toList ++ " (".toList ++
      r.ticker.getD "N/A".toList ++ [')', '*', '\n'] ++
      formatSuccessBody (r.analysis.getD [])

theorem bracketNormalize_ne_star {c : Char} (h : bracketNormalize c = '*') : c = '*' := by
  unfold bracketNormalize at h
  split at h
  · exact absurd h (by decide)
  · split at h
    · exact absurd h (by decide)
    · exact h

theorem star_not_mem_sanitize (a : Chars) : '*' ∉ sanitizeChars a := by
  intro h
  obtain ⟨c, hc, hbc⟩ := List.mem_map.mp h
  have hcs : c = '*' := bracketNormalize_ne_star hbc
  subst hcs
  have := (List.mem_filter.mp (List.mem_filter.mp hc).1).2
  simp at this

theorem sanitize_count_star (a : Chars) : (sanitizeChars a).count '*' = 0 :=
  List.count_eq_zero.mpr (star_not_mem_sanitize a)

theorem banned_not_mem_sanitize (a : Chars) :
    backtickChar ∉ sanitizeChars a ∧ '_' ∉ sanitizeChars a ∧
    '[' ∉ sanitizeChars a ∧ ']' ∉ sanitizeChars a := by
  refine ⟨?_, ?_, ?_, ?_⟩ <;> intro h <;>
    obtain ⟨c, hc, hbc⟩ := List.mem_map.mp h
  · have hcs : c = backtickChar := by
      unfold bracketNormalize at hbc
      split at hbc
      · exact absurd hbc (by decide)
      · split at hbc
        · exact absurd hbc (by decide)
        · exact hbc
    subst hcs
    have := (List.mem_filter.mp
      (List.mem_filter.mp (List.mem_filter.mp hc).1).1).2
    simp at this
  · have hcs : c = '_' := by
      unfold bracketNormalize at hbc
      split at hbc
      · exact absurd hbc (by decide)
      · split at hbc
        · exact absurd hbc (by decide)
        · exact hbc
    subst hcs
    have := (List.mem_filter.mp hc).2
    simp at this
  · unfold bracketNormalize at hbc
    split at hbc
    · exact absurd hbc (by decide)
    · split at hbc
      · exact absurd hbc (by decide)
      · rename_i h1 h2
        exact h1 hbc
  · unfold bracketNormalize at hbc
    split at hbc
    · exact absurd hbc (by decide)
    · split at hbc
      · exact absurd hbc (by decide)
      · rename_i h1 h2
        exact h2 hbc

theorem subNumbersFuel_mem :
    ∀ (fuel : ℕ) (prev : Option Char) (s : Chars) (c : Char),
      c ∈ subNumbersFuel fuel prev s → c = '*' ∨ c ∈ s := by
  intro fuel
  induction fuel with
  | zero => exact fun prev s c h => Or.inr h
  | succ fuel ih =>
    intro prev s c h
    match s with
    | [] => exact absurd h (by simp [subNumbersFuel])
    | c₀ :: rest =>
      rw [subNumbersFuel] at h
      rcases hm : tryNumberMatch prev (c₀ :: rest) with _ | n <;> rw [hm] at h
      · rcases List.mem_cons.mp h with h1 | h2
        · exact Or.inr (h1 ▸ List.mem_cons_self c₀ rest)
        · rcases ih (some c₀) rest c h2 with h3 | h3
          · exact Or.inl h3
          · exact Or.inr (List.mem_cons_of_mem c₀ h3)
      · rcases List.mem_cons.mp h with h1 | h2
        · exact Or.inl h1
        · rcases List.mem_append.mp h2 with h3 | h3
          · exact Or.inr (List.take_subset n (c₀ :: rest) h3)
          · rcases List.mem_cons.mp h3 with h4 | h5
            · exact Or.inl h4
            · rcases ih _ _ c h5 with h6 | h6
              · exact Or.inl h6
              · exact Or.inr (List.drop_subset n (c₀ :: rest) h6)

theorem subNumbersFuel_parity :
    ∀ (fuel : ℕ) (prev : Option Char) (s : Chars),
      (subNumbersFuel fuel prev s).count '*' % 2 = s.count '*' % 2 := by
  intro fuel
  induction fuel with
  | zero => intro prev s; rfl
  | succ fuel ih =>
    intro prev s
    match s with
    | [] => rfl
    | c₀ :: rest =>
      rw [subNumbersFuel]
      rcases hm : tryNumberMatch prev (c₀ :: rest) with _ | n
      · have h1 := ih (some c₀) rest
        rw [List.count_cons, List.count_cons]
        by_cases hc : (c₀ == '*') = true <;> omega
      · have h1 := ih (some (((c₀ :: rest).take n).getLastD c₀)) ((c₀ :: rest).drop n)
        have h2 : (c₀ :: rest).count '*' =
            ((c₀ :: rest).take n).count '*' + ((c₀ :: rest).drop n).count '*' := by
          conv_lhs => rw [← List.take_append_drop n (c₀ :: rest)]
          rw [List.count_append]
        rw [List.count_cons, List.count_append, List.count_cons]
        simp only [beq_self_eq_true, if_true]
        omega

theorem subNumbersFuel_digitfree :
    ∀ (fuel : ℕ) (prev : Option Char) (s : Chars),
      (∀ c ∈ s, c.isDigit = false) → subNumbersFuel fuel prev s = s := by
  intro fuel
  induction fuel with
  | zero => intro prev s _; rfl
  | succ fuel ih =>
    intro prev s hdf
    match s with
    | [] => rfl
    | c₀ :: rest =>
      rw [subNumbersFuel]
      have hm : tryNumberMatch prev (c₀ :: rest) = none := by
        simp [tryNumberMatch, hdf c₀ (List.mem_cons_self c₀ rest)]
      rw [hm, ih (some c₀) rest (fun c hc => hdf c (List.mem_cons_of_mem c₀ hc))]

theorem subNumbers_parity (l : Chars) :
    (subNumbers l).count '*' % 2 = l.count '*' % 2 :=
  subNumbersFuel_parity l.length none l

theorem subNumbers_mem (l : Chars) (c : Char) (h : c ∈ subNumbers l) :
    c = '*' ∨ c ∈ l :=
  subNumbersFuel_mem l.length none l c h

theorem dropWhile_count_star (l : Chars) :
    (l.dropWhile pyIsSpace).count '*' = l.count '*' := by
  conv_rhs => rw [← List.takeWhile_append_dropWhile pyIsSpace l]
  rw [List.count_append]
  have h0 : (l.takeWhile pyIsSpace).count '*' = 0 := by
    rw [List.count_eq_zero]
    intro hmem
    have := List.mem_takeWhile_imp hmem
    simp [pyIsSpace] at this
  omega

theorem pyStrip_count_star (l : Chars) : (pyStrip l).count '*' = l.count '*' := by
  unfold pyStrip
  rw [List.count_reverse, dropWhile_count_star, List.count_reverse, dropWhile_count_star]

theorem pyStrip_subset (l : Chars) : pyStrip l ⊆ l := by
  intro c hc
  unfold pyStrip at hc
  rw [List.mem_reverse] at hc
  have h1 := List.dropWhile_subset pyIsSpace hc
  rw [List.mem_reverse] at h1
  exact List.dropWhile_subset pyIsSpace h1

theorem splitOnNl_ne_nil (s : Chars) : splitOnNl s ≠ [] := by
  match s with
  | [] => simp [splitOnNl]
  | c :: rest =>
    rw [splitOnNl]
    split
    · simp
    · cases h : splitOnNl rest <;> simp

theorem splitOnNl_mem (s : Chars) :
    ∀ line ∈ splitOnNl s, ∀ c ∈ line, c ∈ s := by
  induction s with
  | nil =>
    intro line hline c hc
    simp [splitOnNl] at hline
    subst hline
    exact absurd hc (List.not_mem_nil c)
  | cons c₀ rest ih =>
    intro line hline c hc
    rw [splitOnNl] at hline
    by_cases h0 : c₀ = '\n'
    · rw [if_pos h0] at hline
      rcases List.mem_cons.mp hline with h1 | h1
      · subst h1; exact absurd hc (List.not_mem_nil c)
      · exact List.mem_cons_of_mem c₀ (ih line h1 c hc)
    · rw [if_neg h0] at hline
      cases hsp : splitOnNl rest with
      | nil => exact absurd hsp (splitOnNl_ne_nil rest)
      | cons l ls =>
        rw [hsp] at hline
        rcases List.mem_cons.mp hline with h1 | h1
        · subst h1
          rcases List.mem_cons.mp hc with h2 | h2
          · exact h2 ▸ List.mem_cons_self c₀ rest
          · exact List.mem_cons_of_mem c₀
              (ih l (hsp ▸ List.mem_cons_self l ls) c h2)
        · exact List.mem_cons_of_mem c₀
            (ih line (hsp ▸ List.mem_cons_of_mem l h1) c hc)

theorem splitOnNl_count_star (s : Chars) :
    ((splitOnNl s).map (fun l => l.count '*')).sum = s.count '*' := by
  induction s with
  | nil => simp [splitOnNl]
  | cons c₀ rest ih =>
    rw [splitOnNl]
    by_cases h0 : c₀ = '\n'
    · rw [if_pos h0]
      subst h0
      have hne : ('\n' == '*') = false := by decide
      simp [List.count_cons, ih, hne]
    · rw [if_neg h0]
      cases hsp : splitOnNl rest with
      | nil => exact absurd hsp (splitOnNl_ne_nil rest)
      | cons l ls =>
        rw [hsp] at ih
        simp only [List.map_cons, List.sum_cons, List.count_cons] at ih ⊢
        omega

theorem joinNl_count_star (ls : List Chars) :
    (joinNl ls).count '*' = (ls.map (fun l => l.count '*')).sum := by
  match ls with
  | [] => rfl
  | [l] => simp [joinNl]
  | l :: l' :: rest =>
    rw [joinNl, List.count_append]
    have h1 := joinNl_count_star (l' :: rest)
    have hne : ¬ (('\n' == '*') = true) := by decide
    rw [List.count_cons, if_neg hne]
    simp only [List.map_cons, List.sum_cons] at h1 ⊢
    omega

theorem joinNl_mem (ls : List Chars) (c : Char) (h : c ∈ joinNl ls) :
    c = '\n' ∨ ∃ l ∈ ls, c ∈ l := by
  match ls with
  | [] => exact absurd h (List.not_mem_nil c)
  | [l] => exact Or.inr ⟨l, List.mem_cons_self l [], h⟩
  | l :: l' :: rest =>
    rw [joinNl] at h
    rcases List.mem_append.mp h with h1 | h1
    · exact Or.inr ⟨l, List.mem_cons_self l _, h1⟩
    · rcases List.mem_cons.mp h1 with h2 | h2
      · exact Or.inl h2
      · rcases joinNl_mem (l' :: rest) c h2 with h3 | ⟨l₀, hl₀, hc⟩
        · exact Or.inl h3
        · exact Or.inr ⟨l₀, List.mem_cons_of_mem l hl₀, hc⟩

theorem processLine_count_star (line : Chars) :
    (processLine line).count '*' = line.count '*' ∨
    (processLine line).count '*' = line.count '*' + 2 := by
  have hbold : ('*' :: (pyStrip line ++ ['*'])).count '*' = line.count '*' + 2 := by
    rw [List.count_cons, List.count_append, pyStrip_count_star]
    simp
  simp only [processLine]
  by_cases h1 : (pyStrip line).isEmpty = true
  · rw [if_pos h1]; exact Or.inl rfl
  · rw [if_neg h1]
    by_cases h2 : headingMatch (pyStrip line) = true
    · rw [if_pos h2]; exact Or.inr hbold
    · rw [if_neg h2]
      by_cases h3 : listMarkerMatch (pyStrip line) = true
      · rw [if_pos h3]; exact Or.inr hbold
      · rw [if_neg h3]; exact Or.inl rfl

theorem processLine_mem (line : Chars) (c : Char) (h : c ∈ processLine line) :
    c = '*' ∨ c ∈ line := by
  have hbold : c ∈ ('*' :: (pyStrip line ++ ['*'])) → c = '*' ∨ c ∈ line := by
    intro hb
    rcases List.mem_cons.mp hb with h1 | h1
    · exact Or.inl h1
    · rcases List.mem_append.mp h1 with h2 | h2
      · exact Or.inr (pyStrip_subset line h2)
      · rcases List.mem_cons.mp h2 with h3 | h3
        · exact Or.inl h3
        · exact absurd h3 (List.not_mem_nil c)
  simp only [processLine] at h
  by_cases h1 : (pyStrip line).isEmpty = true
  · rw [if_pos h1] at h; exact Or.inr h
  · rw [if_neg h1] at h
    by_cases h2 : headingMatch (pyStrip line) = true
    · rw [if_pos h2] at h; exact hbold h
    · rw [if_neg h2] at h
      by_cases h3 : listMarkerMatch (pyStrip line) = true
      · rw [if_pos h3] at h; exact hbold h
      · rw [if_neg h3] at h; exact Or.inr h

theorem processedLines_parity (ls : List Chars) :
    ((ls.map processLine).map (fun l => l.count '*')).sum % 2 =
      (ls.map (fun l => l.count '*')).sum % 2 := by
  induction ls with
  | nil => rfl
  | cons l rest ih =>
    simp only [List.map_cons, List.sum_cons]
    rcases processLine_count_star l with h | h <;> omega

theorem paddedBody_mem (a : Chars) (c : Char) (h : c ∈ paddedBody a) :
    c = '\n' ∨ c = '*' ∨ c ∈ sanitizeChars a := by
  unfold paddedBody at h
  rcases List.mem_cons.mp h with h1 | h1
  · exact Or.inl h1
  rcases List.mem_append.mp h1 with h2 | h2
  · have h3 := pyStrip_subset _ h2
    rcases joinNl_mem _ c h3 with h4 | ⟨pl, hpl, hc⟩
    · exact Or.inl h4
    · obtain ⟨line, hline, hplc⟩ := List.mem_map.mp hpl
      subst hplc
      rcases processLine_mem line c hc with h5 | h5
      · exact Or.inr (Or.inl h5)
      · have h6 := splitOnNl_mem _ line hline c h5
        rcases subNumbers_mem _ c h6 with h7 | h7
        · exact Or.inr (Or.inl h7)
        · exact Or.inr (Or.inr h7)
  · rcases List.mem_cons.mp h2 with h3 | h3
    · exact Or.inl h3
    · exact absurd h3 (List.not_mem_nil c)

theorem formatSuccessBody_mem (a : Chars) (c : Char) (h : c ∈ formatSuccessBody a) :
    c ∈ "\n... (trimmed for length)".toList ∨ c = '\n' ∨ c = '*' ∨
      c ∈ sanitizeChars a := by
  unfold formatSuccessBody at h
  split at h
  · rcases List.mem_append.mp h with h1 | h1
    · exact Or.inr (paddedBody_mem a c (List.take_subset _ _ h1))
    · exact Or.inl h1
  · exact Or.inr (paddedBody_mem a c h)

theorem formatSuccessBody_parity (a : Chars)
    (hlen : (paddedBody a).length ≤ 3900) :
    (formatSuccessBody a).count '*' % 2 = 0 := by
  unfold formatSuccessBody
  rw [if_neg (by omega)]
  unfold paddedBody
  have hne : ¬ (('\n' == '*') = true) := by decide
  rw [List.count_cons, if_neg hne, List.count_append, pyStrip_count_star,
    joinNl_count_star]
  have h1 := processedLines_parity (splitOnNl (subNumbers (sanitizeChars a)))
  have h2 := splitOnNl_count_star (subNumbers (sanitizeChars a))
  have h3 := subNumbers_parity (sanitizeChars a)
  have h4 := sanitize_count_star a
  have h5 : (['\n'] : Chars).count '*' = 0 := by decide
  omega

/-- Claim C6 (amended): for every successful result the formatter strips
every backtick, asterisk and underscore of the raw model text and
normalizes its square brackets to parentheses, so none of those
characters is carried into the output verbatim and every emphasis marker
in the output was inserted by the formatter itself; the output's
emphasis markers are balanced (an even number of `*`, as required for
them to pair up) whenever the processed body does not exceed the
3900-character trim threshold.  Truncation at the threshold can cut
inside an inserted bold span and leave an unmatched marker — see the
counterexample. -/
theorem claim_C6_formatter :
    (∀ a : Chars, (sanitizeChars a).count '*' = 0 ∧
      backtickChar ∉ sanitizeChars a ∧ '_' ∉ sanitizeChars a ∧
      '[' ∉ sanitizeChars a ∧ ']' ∉ sanitizeChars a) ∧
    (∀ r : StepResult, ∀ a n t : Chars,
      r.success = true → r.analysis = some a → r.stock_name = some n →
      r.ticker = some t →
      ((backtickChar ∉ n → backtickChar ∉ t → backtickChar ∉ format_ai_analysis r) ∧
       ('_' ∉ n → '_' ∉ t → '_' ∉ format_ai_analysis r) ∧
       ('[' ∉ n → '[' ∉ t → '[' ∉ format_ai_analysis r) ∧
       (']' ∉ n → ']' ∉ t → ']' ∉ format_ai_analysis r)) ∧
      (n.count '*' = 0 → t.count '*' = 0 → (paddedBody a).length ≤ 3900 →
        (format_ai_analysis r).count '*' % 2 = 0)) := by
  refine ⟨fun a => ⟨sanitize_count_star a, banned_not_mem_sanitize a⟩, ?_⟩
  intro r a n t hs ha hn ht
  have hform : format_ai_analysis r =
      "üß† *AI Analysis: ".toList ++ n ++ " (".toList ++ t ++
        [')', '*', '\n'] ++ formatSuccessBody a := by
    unfold format_ai_analysis
    rw [if_neg (by rw [hs]; decide), ha, hn, ht]
    rfl
  have hgen : ∀ x : Char, x ∉ n → x ∉ t → x ∉ sanitizeChars a →
      x ∉ "üß† *AI Analysis: ".toList → x ∉ " (".toList →
      x ∉ ([')', '*', '\n'] : Chars) →
      x ∉ "\n... (trimmed for length)".toList → x ≠ '\n' → x ≠ '*' →
      x ∉ format_ai_analysis r := by
    intro x hxn hxt hxs h1 h2 h3 h4 h5 h6 hmem
    rw [hform] at hmem
    rcases List.mem_append.mp hmem with hm | hm
    · rcases List.mem_append.mp hm with hm | hm
      · rcases List.mem_append.mp hm with hm | hm
        · rcases List.mem_append.mp hm with hm | hm
          · rcases List.mem_append.mp hm with hm | hm
            · exact h1 hm
            · exact hxn hm
          · exact h2 hm
        · exact hxt hm
      · exact h3 hm
    · rcases formatSuccessBody_mem a x hm with hm | hm | hm | hm
      · exact h4 hm
      · exact h5 hm
      · exact h6 hm
      · exact hxs hm
  constructor
  · refine ⟨fun h₁ h₂ => ?_, fun h₁ h₂ => ?_, fun h₁ h₂ => ?_, fun h₁ h₂ => ?_⟩
    · exact hgen backtickChar h₁ h₂ (banned_not_mem_sanitize a).1
        (by decide) (by decide) (by decide) (by decide) (by decide) (by decide)
    · exact hgen '_' h₁ h₂ (banned_not_mem_sanitize a).2.1
        (by decide) (by decide) (by decide) (by decide) (by decide) (by decide)
    · exact hgen '[' h₁ h₂ (banned_not_mem_sanitize a).2.2.1
        (by decide) (by decide) (by decide) (by decide) (by decide) (by decide)
    · exact hgen ']' h₁ h₂ (banned_not_mem_sanitize a).2.2.2
        (by decide) (by decide) (by decide) (by decide) (by decide) (by decide)
  · intro hcn hct hlen
    rw [hform]
    simp only [List.count_append]
    have h1 : ("üß† *AI Analysis: ".toList).count '*' = 1 := by decide
    have h2 : (" (".toList).count '*' = 0 := by decide
    have h3 : (([')', '*', '\n'] : Chars)).count '*' = 1 := by decide
    have h4 := formatSuccessBody_parity a hlen
    omega

/-- Claim C6 witness: the amended clauses applied at a concrete short
successful result. -/
theorem claim_C6_formatter_witness :
    backtickChar ∉ format_ai_analysis
      ⟨true, some "Net profit rose 12% to 1,000 Cr.".toList, none,
        some "Foo".toList, some "F.NS".toList⟩ ∧
    (format_ai_analysis
      ⟨true, some "Net profit rose 12% to 1,000 Cr.".toList, none,
        some "Foo".toList, some "F.NS".toList⟩).count '*' % 2 = 0 :=
  ⟨((claim_C6_formatter.2 _ "Net profit rose 12% to 1,000 Cr.".toList "Foo".toList
      "F.NS".toList rfl rfl rfl rfl).1.1 (by decide) (by decide)),
   ((claim_C6_formatter.2 _ "Net profit rose 12% to 1,000 Cr.".toList "Foo".toList
      "F.NS".toList rfl rfl rfl rfl).2 (by decide) (by decide) (by decide))⟩

/-- The adversarial raw analysis for the length ceiling: a 3845-character
plain line, then a heading line the formatter wraps in `*...*`; the cut
at 3850 characters falls between the two inserted asterisks. -/
def badAnalysis : Chars :=
  List.replicate 3845 'q' ++ '\n' :: ("Summary:".toList ++ List.replicate 101 'b')

/-- A successful narration result carrying the adversarial text. -/
def badResult : StepResult :=
  ⟨true, some badAnalysis, none, some ['X'], some ['X']⟩

theorem map_id_of_mem (f : Char → Char) :
    ∀ l : Chars, (∀ c ∈ l, f c = c) → l.map f = l := by
  intro l h
  induction l with
  | nil => rfl
  | cons c rest ih =>
    rw [List.map_cons, h c (List.mem_cons_self c rest),
      ih (fun x hx => h x (List.mem_cons_of_mem c hx))]

theorem eq_q_of_mem_replicate {x c : Char} {n : ℕ}
    (h : x ∈ List.replicate n c) : x = c := by
  induction n with
  | zero => exact absurd h (List.not_mem_nil x)
  | succ n ih =>
    rw [List.replicate_succ] at h
    rcases List.mem_cons.mp h with h1 | h1
    · exact h1
    · exact ih h1

theorem dropWhile_all_false (p : Char → Bool) :
    ∀ l : Chars, (∀ c ∈ l, p c = false) → l.dropWhile p = l := by
  intro l h
  cases l with
  | nil => rfl
  | cons c rest =>
    rw [List.dropWhile_cons, if_neg]
    rw [h c (List.mem_cons_self c rest)]
    exact Bool.false_ne_true

theorem takeWhile_replicate_self (p : Char → Bool) (c : Char) (h : p c = true) :
    ∀ n, (List.replicate n c).takeWhile p = List.replicate n c := by
  intro n
  induction n with
  | zero => rfl
  | succ n ih => rw [List.replicate_succ, List.takeWhile_cons, h, if_pos rfl, ih]

theorem pyStrip_no_space (l : Chars) (h : ∀ c ∈ l, pyIsSpace c = false) :
    pyStrip l = l := by
  unfold pyStrip
  rw [dropWhile_all_false pyIsSpace l h,
    dropWhile_all_false pyIsSpace l.reverse
      (fun c hc => h c (List.mem_reverse.mp hc)),
    List.reverse_reverse]

theorem splitOnNl_append_nl :
    ∀ (a b : Chars), '\n' ∉ a → splitOnNl (a ++ '\n' :: b) = a :: splitOnNl b := by
  intro a
  induction a with
  | nil => intro b _; simp [splitOnNl]
  | cons c a' ih =>
    intro b ha
    have hc : ¬ c = '\n' := fun h => ha (h ▸ List.mem_cons_self c a')
    rw [List.cons_append, splitOnNl, if_neg hc,
      ih b (fun h => ha (List.mem_cons_of_mem c h))]

theorem splitOnNl_eq_self (l : Chars) (h : '\n' ∉ l) : splitOnNl l = [l] := by
  induction l with
  | nil => rfl
  | cons c rest ih =>
    have hc : ¬ c = '\n' := fun hx => h (hx ▸ List.mem_cons_self c rest)
    rw [splitOnNl, if_neg hc, ih (fun hx => h (List.mem_cons_of_mem c hx))]

/-- Claim C6 counterexample: the raw text contains no emphasis marker at
all, the processed body exceeds the trim threshold, and the delivered
output contains an odd number of `*` — its markup cannot be balanced, so
the formatter's output markup is not always balanced as claimed. -/
theorem claim_C6_formatter_counterexample :
    badAnalysis.count '*' = 0 ∧
    (paddedBody badAnalysis).length > 3900 ∧
    (format_ai_analysis badResult).count '*' % 2 = 1 := by
  have hA : List.replicate 3845 'q' = 'q' :: List.replicate 3844 'q' := rfl
  set_option maxRecDepth 40000 in
  have hcount0 : badAnalysis.count '*' = 0 := by decide
  have hcharsB : ∀ c ∈ "Summary:".toList ++ List.replicate 101 'b',
      c ∈ "Summary:b".toList := by
    intro c hc
    rcases List.mem_append.mp hc with h1 | h1
    · exact (by decide : ∀ x ∈ "Summary:".toList, x ∈ "Summary:b".toList) c h1
    · rw [eq_q_of_mem_replicate h1]; decide
  have hchars : ∀ c ∈ badAnalysis,
      c = 'q' ∨ c = '\n' ∨ c ∈ "Summary:b".toList := by
    intro c hc
    rcases List.mem_append.mp hc with h1 | h1
    · exact Or.inl (eq_q_of_mem_replicate h1)
    · rcases List.mem_cons.mp h1 with h2 | h2
      · exact Or.inr (Or.inl h2)
      · exact Or.inr (Or.inr (hcharsB c h2))
  have hclean : ∀ c ∈ badAnalysis, c ≠ backtickChar ∧ c ≠ '*' ∧ c ≠ '_' ∧
      bracketNormalize c = c ∧ c.isDigit = false := by
    intro c hc
    rcases hchars c hc with h | h | h
    · rw [h]; exact (by decide)
    · rw [h]; exact (by decide)
    · exact (by decide : ∀ x ∈ "Summary:b".toList, x ≠ backtickChar ∧ x ≠ '*' ∧
        x ≠ '_' ∧ bracketNormalize x = x ∧ x.isDigit = false) c h
  have hsan : sanitizeChars badAnalysis = badAnalysis := by
    unfold sanitizeChars
    rw [List.filter_eq_self.mpr
        (fun c hc => decide_eq_true (hclean c hc).1),
      List.filter_eq_self.mpr
        (fun c hc => decide_eq_true (hclean c hc).2.1),
      List.filter_eq_self.mpr
        (fun c hc => decide_eq_true (hclean c hc).2.2.1),
      map_id_of_mem _ _ (fun c hc => (hclean c hc).2.2.2.1)]
  have hsub : subNumbers badAnalysis = badAnalysis :=
    subNumbersFuel_digitfree _ _ _ (fun c hc => (hclean c hc).2.2.2.2)
  have hnlA : '\n' ∉ List.replicate 3845 'q' := fun h =>
    absurd (eq_q_of_mem_replicate h) (by decide)
  have hnlB : '\n' ∉ "Summary:".toList ++ List.replicate 101 'b' := fun h =>
    absurd (hcharsB '\n' h) (by decide)
  have hsplit : splitOnNl badAnalysis =
      [List.replicate 3845 'q', "Summary:".toList ++ List.replicate 101 'b'] := by
    unfold badAnalysis
    rw [splitOnNl_append_nl _ _ hnlA, splitOnNl_eq_self _ hnlB]
  have hspaceA : ∀ c ∈ List.replicate 3845 'q', pyIsSpace c = false := by
    intro c hc; rw [eq_q_of_mem_replicate hc]; decide
  have hspaceB : ∀ c ∈ "Summary:".toList ++ List.replicate 101 'b',
      pyIsSpace c = false := fun c hc =>
    (by decide : ∀ x ∈ "Summary:b".toList, pyIsSpace x = false) c (hcharsB c hc)
  have hstripA : pyStrip (List.replicate 3845 'q') = List.replicate 3845 'q' :=
    pyStrip_no_space _ hspaceA
  have hstripB : pyStrip ("Summary:".toList ++ List.replicate 101 'b') =
      "Summary:".toList ++ List.replicate 101 'b' := pyStrip_no_space _ hspaceB
  set_option maxRecDepth 40000 in
  have hheadA : headingMatch (List.replicate 3845 'q') = false := by decide
  have hheadB : headingMatch ("Summary:".toList ++ List.replicate 101 'b') = true := by
    decide
  have hemptyA : (List.replicate 3845 'q').isEmpty = false := by rw [hA]; rfl
  have hemptyB : ("Summary:".toList ++ List.replicate 101 'b').isEmpty = false := by
    decide
  have hmarkA : listMarkerMatch (List.replicate 3845 'q') = false := by
    simp only [listMarkerMatch]
    rw [dropWhile_all_false pyIsSpace _ hspaceA,
      takeWhile_replicate_self isWordChar 'q' (by decide) 3845, List.drop_length]
  have hpA : processLine (List.replicate 3845 'q') = List.replicate 3845 'q' := by
    simp only [processLine]
    rw [hstripA, if_neg (by rw [hemptyA]; exact Bool.false_ne_true),
      if_neg (by rw [hheadA]; exact Bool.false_ne_true),
      if_neg (by rw [hmarkA]; exact Bool.false_ne_true)]
  have hpB : processLine ("Summary:".toList ++ List.replicate 101 'b') =
      '*' :: (("Summary:".toList ++ List.replicate 101 'b') ++ ['*']) := by
    simp only [processLine]
    rw [hstripB, if_neg (by rw [hemptyB]; exact Bool.false_ne_true), if_pos hheadB]
  have hmap : (splitOnNl badAnalysis).map processLine =
      [List.replicate 3845 'q',
       '*' :: (("Summary:".toList ++ List.replicate 101 'b') ++ ['*'])] := by
    rw [hsplit]
    simp only [List.map_cons, List.map_nil]
    rw [hpA, hpB]
  have hassoc : List.replicate 3845 'q' ++ '\n' ::
        '*' :: (("Summary:".toList ++ List.replicate 101 'b') ++ ['*']) =
      (List.replicate 3845 'q' ++ '\n' :: '*' ::
        ("Summary:".toList ++ List.replicate 101 'b')) ++ ['*'] := by
    simp only [List.append_assoc, List.cons_append]
  have hfront : ∀ X : Chars,
      List.dropWhile pyIsSpace (List.replicate 3845 'q' ++ X) =
        List.replicate 3845 'q' ++ X := by
    intro X
    rw [hA, List.cons_append, List.dropWhile_cons,
      if_neg (by decide : ¬ (pyIsSpace 'q' = true))]
  have hstripJ : pyStrip (List.replicate 3845 'q' ++ '\n' ::
        '*' :: (("Summary:".toList ++ List.replicate 101 'b') ++ ['*'])) =
      List.replicate 3845 'q' ++ '\n' ::
        '*' :: (("Summary:".toList ++ List.replicate 101 'b') ++ ['*']) := by
    unfold pyStrip
    rw [hfront, hassoc, List.reverse_append]
    rw [show (['*'] : Chars).reverse = ['*'] from rfl, List.singleton_append,
      List.dropWhile_cons, if_neg (by decide : ¬ (pyIsSpace '*' = true)),
      List.reverse_cons, List.reverse_reverse]
  have hpad : paddedBody badAnalysis =
      '\n' :: (((List.replicate 3845 'q' ++ '\n' :: '*' ::
        ("Summary:".toList ++ List.replicate 101 'b')) ++ ['*']) ++ ['\n']) := by
    unfold paddedBody
    rw [hsan, hsub, hmap]
    rw [show joinNl [List.replicate 3845 'q',
        '*' :: (("Summary:".toList ++ List.replicate 101 'b') ++ ['*'])] =
      List.replicate 3845 'q' ++ '\n' ::
        '*' :: (("Summary:".toList ++ List.replicate 101 'b') ++ ['*']) from rfl]
    rw [hstripJ, hassoc]
  have hlenB : ("Summary:".toList ++ List.replicate 101 'b').length = 109 := by decide
  have hlenpad : (paddedBody badAnalysis).length = 3959 := by
    rw [hpad]
    simp only [List.length_cons, List.length_append, List.length_replicate, hlenB,
      List.length_nil]
  have hgt : (paddedBody badAnalysis).length > 3900 := by rw [hlenpad]; norm_num
  refine ⟨hcount0, hgt, ?_⟩
  have hfmt : format_ai_analysis badResult =
      "\uf8ffüß† *AI Analysis: ".toList ++ ['X'] ++ " (".toList ++ ['X'] ++
        [')', '*', '\n'] ++ formatSuccessBody badAnalysis := rfl
  have hbody : formatSuccessBody badAnalysis =
      (paddedBody badAnalysis).take 3850 ++ "\n... (trimmed for length)".toList := by
    unfold formatSuccessBody
    split
    · rfl
    · rename_i hcontra
      exact absurd hgt hcontra
  have hlenW : (List.replicate 3845 'q' ++ '\n' :: '*' ::
      ("Summary:".toList ++ List.replicate 101 'b')).length = 3956 := by
    simp only [List.length_cons, List.length_append, List.length_replicate, hlenB]
  have hlenW2 : ((List.replicate 3845 'q' ++ '\n' :: '*' ::
      ("Summary:".toList ++ List.replicate 101 'b')) ++ ['*']).length = 3957 := by
    rw [List.length_append, hlenW]; rfl
  have htake : (paddedBody badAnalysis).take 3850 =
      '\n' :: (List.replicate 3845 'q' ++ '\n' :: '*' ::
        ("Summary:".toList ++ List.replicate 101 'b').take 2) := by
    rw [hpad, show (3850 : ℕ) = 3849 + 1 from rfl, List.take_succ_cons,
      List.take_append_eq_append_take, hlenW2,
      show (3849 - 3957 : ℕ) = 0 from rfl, List.take_zero, List.append_nil,
      List.take_append_eq_append_take, hlenW,
      show (3849 - 3956 : ℕ) = 0 from rfl, List.take_zero, List.append_nil,
      List.take_append_eq_append_take, List.length_replicate,
      show (3849 - 3845 : ℕ) = 4 from rfl,
      List.take_of_length_le (by rw [List.length_replicate]; omega),
      show (4 : ℕ) = 3 + 1 from rfl, List.take_succ_cons,
      show (3 : ℕ) = 2 + 1 from rfl, List.take_succ_cons]
  have htake2 : ("Summary:".toList ++ List.replicate 101 'b').take 2 = ['S', 'u'] := by
    decide
  have hcountA : (List.replicate 3845 'q').count '*' = 0 := by
    rw [List.count_replicate]; decide
  have h1 : ("\uf8ffüß† *AI Analysis: ".toList).count '*' = 1 := by decide
  have h2 : (" (".toList).count '*' = 0 := by decide
  have h3 : ("\n... (trimmed for length)".toList).count '*' = 0 := by decide
  have hcount : (format_ai_analysis badResult).count '*' = 3 := by
    rw [hfmt, hbody, htake, htake2]
    simp only [List.count_append, List.count_cons, List.count_nil, h1, h2, h3, hcountA]
    decide
  rw [hcount]
/-- The `STOCK_ANALYSIS_PROMPT` template of src/ai_analyst.py, verbatim. -/
def STOCK_ANALYSIS_PROMPT : Chars :=
  "\na) You are a financial analyst who is reviewing the *basic overview* of a company. \nb) This includes its name, ticker, current stock price, market cap, sector, industry, country, website, and business summary, you have to analyze\nit and provide a short and sharp analysis of the stock's general standing. \nc) You also have data like 52-week highs and lows, PE ratio, PB ratio, average trading volume, and major holders.\n\nd) Using this data:\n1. Give a short and sharp analysis of the stock's general standing.\n2. Highlight the market cap class (small-cap, mid-cap, large-cap) based on the currency.\n3. Briefly assess how its price metrics (PE, PB) compare to sector norms if they look high or low.\n4. Do not go deep into profitability or balance sheet health ‚Äî that is for the next steps.\n5. NEVER conclude the full analysis. Just end by teasing the next step.\n6. Always mention the company website in your analysis at last in the answer if there is any.\n7. Where relevant, briefly add any useful insights beyond the provided data.\n8. Structure the answer in NUMBERED bullet points. Keep each point concise. Use a) b) c) etc. for sub-points.\n9. Give one line space between each SUB-BULLET point, If you haven't already done so.\n10. Use financial emojis to make the analysis more engaging.\n\n‚úÖ Provide a thorough and insightful analysis. Aim for a detailed response, typically between 1500 and 3500 characters, ensuring it stays under the 4000 character limit for Telegram.  \n‚úÖ End with a one-liner that says what the user will analyze in **Step 2: Detailed Financials & Ratios**.\n\n\nHere's the stock data:\n".toList

/-- The `FINANCIAL_STATEMENT_ANALYSIS_PROMPT` template of src/ai_analyst.py, verbatim. -/
def FINANCIAL_STATEMENT_ANALYSIS_PROMPT : Chars :=
  "\na) You are analyzing the *income statements and key financial ratios* of a company. \nb) This includes annual and quarterly data for revenue, gross profit, net income, EBIT. \nc) Also includes Return on Equity, Return on Assets, profit margins, debt-to-equity ratio, current ratio, and insider/institutional holdings.\nd) Your task:\n1. Identify how revenue and net income trends have moved over years and recent quarters.\n2. Mention if margins are strong or weak, and whether the company is improving.\n3. Talk about capital structure and balance of debt.\n4. Assess if ratios indicate profitability and financial efficiency.\n5. Do not dive into total assets, liabilities, or cash flow as that is the next step.\n6. Do not conclude. Just leave the user looking forward to Step 3.\n7. Where relevant, briefly add any useful insights beyond the provided data.\n8. Structure the answer in NUMBERED bullet points. Keep each point concise. Use a) b) c) etc. for sub-points, with one line of space between each.\n9. Use financial emojis to make the analysis more engaging.\n\n‚úÖ Provide a thorough and insightful analysis. Aim for a detailed response, typically between 1500 and 3500 characters, ensuring it stays under the 4000 character limit for Telegram.  \n‚úÖ End with a one-liner that says Step 3 will analyze **Balance Sheet and Cash Flow Health.**\n\n\nHere is the detailed financial report for the company:\n".toList

/-- The `STEP3_BALANCE_SHEET_CASH_FLOW_ANALYSIS_PROMPT` template of src/ai_analyst.py, verbatim. -/
def STEP3_BALANCE_SHEET_CASH_FLOW_ANALYSIS_PROMPT : Chars :=
  "\na) You are evaluating the *balance sheet and cash flow statement* of a company. \nb) This includes data for Total Assets, Liabilities, Equity, Cash & Equivalents, Short/Long Term Debt, Net Debt, Operating/Investing/Financing cash flow, Capital Expenditures, and Free Cash Flow for recent years.\nc) Your job:\n1. Judge the company is financial health ‚Äî asset base vs liabilities.\n2. Highlight debt burden and liquidity safety.\n3. Point out trends in cash flow from operations ‚Äî is the company consistently generating cash?\n4. Comment on CapEx vs Free Cash Flow and whether the firm is cash-rich or cash-strapped.\n5. Do not summarize or provide a final investment decision.\n6. Do not calculate debt to equity ratio with the help of data provided.\n7. Where relevant, briefly add any useful insights beyond the provided data.\n8. Structure the answer in NUMBERED bullet points. Keep each point concise. Use a) b) c) etc. for sub-points, with one line of space between each.\n9. Use financial emojis to make the analysis more engaging.\n\n‚úÖ Provide a thorough and insightful analysis. Aim for a detailed response, typically between 1500 and 3500 characters, ensuring it stays under the 4000 character limit for Telegram.  \n‚úÖ End with a teaser like: \"Final insights and verdict will follow in the concluding step.\"\n\n\nHere is the Balance Sheet and Cash Flow Statement data for the company:\n".toList

/-- The `FINAL_SUMMARY_ANALYSIS_PROMPT` template of src/ai_analyst.py, verbatim. -/
def FINAL_SUMMARY_ANALYSIS_PROMPT : Chars :=
  "\n\nCore Instructions:\na) You are concluding a full 3-step fundamental analysis of a company. \nb) You've seen the stock's overview, financial statements, key ratios, balance sheet, and cash flows. \nc) Now your task is to give a clear and practical assessment based on everything observed earlier.\nd) Structure the answer in numbered bullet points. Keep points concise. Use a), b), c) etc. for sub-points, with one line of space between each.\ne) Instructions:\n1. List UP TO five key Strengths of the company. Strenghts should only be based on the provided data snippets. DON'T MAKE ASSUMPTIONS.\n2. List UP TO five key Weaknesses of the company. Weaknesses should only be based on the provided data snippets. DON'T MAKE ASSUMPTIONS.\n3. Give a ginal OVERALL RATING of the company out of 10 based on the industry future, financial health etc. and be BRUTALLY HONEST, don't SUGARCOAT and TRY TO BE GOOD.\n4. IGNORE the debt level of the company for final analysis.\n\nAdditional Guidelines:\n- Be sharp and confident ‚Äî don't be vague or diplomatic.\n- Don't repeat info from earlier steps unless necessary to support a point.\n- Wrap it up WITHOUT SUGARCOATING ‚Äî make it feel like a proper analyst's closure.\n\n‚úÖ Provide a thorough and insightful analysis. Aim for a detailed response, typically between 1500 and 3500 characters, ensuring it stays under the 4000 character limit for Telegram.\n‚úÖ Use simple headers like `‚úÖ Strengths`, `‚ö†Ô∏è Weaknesses`, and `üìä Ratings`.\n".toList

/-- An effect: one interaction with an external collaborator (transport
send, market-data fetch, or language-model completion), recorded in
order of occurrence.  `llmCall` carries the multi-turn history passed
with the request (`generate_content_async` on the shared
`GenerativeModel` passes none) and the prompt text. -/
inductive Effect where
  | send (text : Chars) (buttons : List String) : Effect
  | fetchOverview (ticker : Chars) : Effect
  | fetchDetailedFinancials (ticker : Chars) : Effect
  | fetchStep3Statements (ticker : Chars) : Effect
  | llmCall (history : List Chars) (prompt : Chars) : Effect
  | chatRoute (text : Chars) : Effect
  deriving Repr, DecidableEq

/-- The stored stock identity (`name`, `ticker`) of the overview record
built by `stock_analyzer.analyze_stock`.  The remaining overview fields
(price, ranges, valuation figures, business summary) take part only in
the step-1 prompt serialization, which no claim references; they are
elided from the model. -/
structure StockData where
  name : Chars
  ticker : Chars
  deriving Repr, DecidableEq

/-- The serialized overview block appended to the step-1 template
(src/ai_analyst.py lines 140-158), shown up to the elided fields. -/
def stock_info (d : StockData) : Chars :=
  "\nStock Data Overview:\n------------------\nName: ".toList ++ d.name ++
    "\nTicker: ".toList ++ d.ticker

/-- `get_step1_overview_analysis` (src/ai_analyst.py lines 122-174):
issue one fresh completion over the step-1 template plus the serialized
overview; a success carries the analysis text with the stock's name and
ticker; a failure carries only the error description — the `stock_name`
and `ticker` keys are absent from the failure dictionary even though
both values were available. -/
def get_step1_overview_analysis (d : StockData) (llm : Except Chars Chars) :
    List Effect × StepResult :=
  ([.llmCall [] (STOCK_ANALYSIS_PROMPT ++ stock_info d)],
   match llm with
   | .ok text => ⟨true, some text, none, some d.name, some d.ticker⟩
   | .error e => ⟨false, none, some e, none, none⟩)

/-- `get_step2_financial_analysis` (src/ai_analyst.py lines 176-208): one
fresh completion over the step-2 template plus the formatted financial
report; both success and failure preserve the stock's name and ticker. -/
def get_step2_financial_analysis (report stock_name ticker : Chars)
    (llm : Except Chars Chars) : List Effect × StepResult :=
  ([.llmCall [] (FINANCIAL_STATEMENT_ANALYSIS_PROMPT ++ "\n\n".toList ++
      "Company: ".toList ++ stock_name ++ " (".toList ++ ticker ++ ")\n\n".toList ++
      report)],
   match llm with
   | .ok text => ⟨true, some text, none, some stock_name, some ticker⟩
   | .error e => ⟨false, none, some e, some stock_name, some ticker⟩)

/-- `get_step3_financial_analysis` (src/ai_analyst.py lines 210-242):
like step 2 over the balance-sheet/cash-flow report. -/
def get_step3_financial_analysis (report stock_name ticker : Chars)
    (llm : Except Chars Chars) : List Effect × StepResult :=
  ([.llmCall [] (STEP3_BALANCE_SHEET_CASH_FLOW_ANALYSIS_PROMPT ++ "\n\n".toList ++
      "Company: ".toList ++ stock_name ++ " (".toList ++ ticker ++ ")\n\n".toList ++
      report)],
   match llm with
   | .ok text => ⟨true, some text, none, some stock_name, some ticker⟩
   | .error e => ⟨false, none, some e, some stock_name, some ticker⟩)

/-- `get_final_summary_analysis` (src/ai_analyst.py lines 244-276): the
final-summary call.  `FINAL_SUMMARY_ANALYSIS_PROMPT.format(...)` is the
identity — the template contains no replacement fields, so the keyword
arguments are ignored — and `generate_content_async` is a fresh one-shot
completion on the shared `GenerativeModel`, so the request carries no
conversation history at all (contrast `chat_handler.py`, which opens a
`start_chat` session to obtain history retention). -/
def get_final_summary_analysis (stock_name ticker : Chars)
    (llm : Except Chars Chars) : List Effect × StepResult :=
  ([.llmCall [] FINAL_SUMMARY_ANALYSIS_PROMPT],
   match llm with
   | .ok text => ⟨true, some text, none, some stock_name, some ticker⟩
   | .error e => ⟨false, none, some e, some stock_name, some ticker⟩)

/-- Payload of a successful statement fetch (`get_detailed_financials` /
`get_step3_financial_statements` followed by the pure formatting step):
the formatted report text and the display name returned by the fetch. -/
structure FinData where
  report : Chars
  fetched_name : Chars
  deriving Repr

/-- Per-user state of src/main.py: `analyzeMode` is membership of
`user_states[uid] == "analyze_mode"`; `stockData` is the stored
`user_stock_data[uid]` (stored only as a full successful `analyze_stock`
record, so name and ticker are always present when it is);
`chatActive` is membership in `active_chats` (chat_handler.py). -/
structure BotState where
  analyzeMode : Bool
  stockData : Option StockData
  chatActive : Bool
  deriving Repr, DecidableEq

/-- Chunked delivery of a formatted analysis with the next-step keyboard
on the final chunk only (src/main.py lines 274-288 and analogues). -/
def deliverChunked (text : Chars) (buttons : List String) : List Effect :=
  (sendChunks text).map (fun c => .send c.1 (if c.2 then buttons else []))

/-- `analyze_stock_prompt` (src/main.py lines 144-160): prompt for a
ticker and set the analyze-mode flag. -/
def analyze_stock_prompt (st : BotState) : List Effect × BotState :=
  ([.send "📈 *Stock Analysis with AI*\n\nPlease enter the ticker symbol of the stock you want to analyze.\n\nExample: RELIANCE, TCS etc".toList
      ["back_to_menu"]],
   { st with analyzeMode := true })

/-- `handle_stock_analysis` (src/main.py lines 174-220): normalize the
ticker, fetch the overview (`analyze_stock`), on failure report and stop;
on success store the record, run the step-1 narration and send the
formatted result with the step-2 control. -/
def handle_stock_analysis (st : BotState) (text : Chars)
    (resolution : Except Chars StockData) (llm : Except Chars Chars) :
    List Effect × BotState :=
  let ticker := normalizeTicker text
  let pre : List Effect :=
    [.send "Analyzing stock data... Please wait.".toList [], .fetchOverview ticker]
  match resolution with
  | .error e => (pre ++ [.send ("❌ *Error*: ".toList ++ e) []], st)
  | .ok d =>
    let n := get_step1_overview_analysis d llm
    (pre ++ [.send "Generating AI analysis... Please wait.".toList []] ++ n.1 ++
      [.send (format_ai_analysis n.2) ["ai_analysis_step2", "back_to_menu"]],
     { st with stockData := some d })

/-- `process_ai_analysis_step2` (src/main.py lines 222-293): with no
stored stock record, short-circuit to the guidance message with the
re-analyze control before any external call; otherwise fetch the income
statements, run the step-2 narration, deliver chunked with the step-3
control, and clear the analyze-mode flag. -/
def process_ai_analysis_step2 (st : BotState) (fin : Except Chars FinData)
    (llm : Except Chars Chars) : List Effect × BotState :=
  match st.stockData with
  | none =>
    ([.send "⚠️ Could not retrieve stock information for detailed analysis. Please try analyzing the stock again.".toList
        ["analyze"]], st)
  | some d =>
    let pre : List Effect :=
      [.send ("Fetching detailed financials for ".toList ++ d.name ++ " (".toList ++
          d.ticker ++ ")... Please wait. ⏳".toList) [],
       .fetchDetailedFinancials d.ticker]
    match fin with
    | .error e =>
      (pre ++ [.send ("❌ *Error fetching financials for ".toList ++ d.name ++
          "*:\n".toList ++ e) []], st)
    | .ok f =>
      let n := get_step2_financial_analysis f.report d.name d.ticker llm
      (pre ++ [.send ("🤖 Analyzing detailed financials for ".toList ++ d.name ++
          " with AI... Please wait. This may take a moment.".toList) []] ++ n.1 ++
        deliverChunked (format_ai_analysis n.2) ["ai_analysis_step3", "back_to_menu"],
       { st with analyzeMode := false })

/-- `process_ai_analysis_step3` (src/main.py lines 295-362): same guard;
fetch balance sheet and cash flow, run the step-3 narration (named by
the fetch result's stock name), deliver chunked with the final-step
control.  Neither the flag nor the stored record is changed. -/
def process_ai_analysis_step3 (st : BotState) (fin : Except Chars FinData)
    (llm : Except Chars Chars) : List Effect × BotState :=
  match st.stockData with
  | none =>
    ([.send "⚠️ Could not retrieve stock information for Step 3 analysis. Please try analyzing the stock again.".toList
        ["analyze"]], st)
  | some d =>
    let pre : List Effect :=
      [.send ("Fetching Balance Sheet & Cash Flow for ".toList ++ d.name ++
          " (".toList ++ d.ticker ++ ") for AI analysis... Please wait. ⏳".toList) [],
       .fetchStep3Statements d.ticker]
    match fin with
    | .error e =>
      (pre ++ [.send ("❌ *Error fetching Step 3 financials for ".toList ++ d.name ++
          "*:\n".toList ++ e) ["back_to_menu"]], st)
    | .ok f =>
      let n := get_step3_financial_analysis f.report f.fetched_name d.ticker llm
      (pre ++ [.send ("Sending Balance Sheet & Cash Flow data of ".toList ++ d.name ++
          " to AI for analysis... Please wait. 🧠".toList) []] ++ n.1 ++
        deliverChunked (format_ai_analysis n.2)
          ["final_analysis_step", "analyze", "back_to_menu"],
       st)

/-- `process_final_analysis_step` (src/main.py lines 364-411): same
guard; no structured data fetch — run the final-summary narration and
deliver chunked, then delete the stored stock record. -/
def process_final_analysis_step (st : BotState) (llm : Except Chars Chars) :
    List Effect × BotState :=
  match st.stockData with
  | none =>
    ([.send "⚠️ Sorry, I don't have the previous analysis data for this stock. Please start a new analysis.".toList
        ["analyze", "back_to_menu"]], st)
  | some d =>
    let n := get_final_summary_analysis d.name d.ticker llm
    ([.send ("🤖 Generating final AI summary for ".toList ++ d.name ++ " (".toList ++
        d.ticker ++ ")... Please wait. This might take a moment. ⏳".toList) []] ++ n.1 ++
      deliverChunked (format_ai_analysis n.2) ["back_to_menu"],
     { st with stockData := none })

/-- The welcome text of `start` (src/main.py lines 29-72); the user's
first-name interpolation is elided (no claim references the text). -/
def welcome_message : Chars := "👋 *Welcome to FinanceBot!* 👋".toList

/-- The `back_to_menu` branch of `button_callback` (src/main.py lines
106-115): clear the mode flag and the stored record, end any chat
session, and show the menu. -/
def back_to_menu_action (st : BotState) : List Effect × BotState :=
  ([.send welcome_message ["markets", "chat", "analyze"]], ⟨false, none, false⟩)

/-- `handle_user_message` (src/main.py lines 162-172): free text is
routed to ticker resolution while the analyze-mode flag is set, and to
the free-chat handler otherwise. -/
def handle_user_message (st : BotState) (text : Chars)
    (resolution : Except Chars StockData) (llm : Except Chars Chars) :
    List Effect × BotState :=
  if st.analyzeMode then handle_stock_analysis st text resolution llm
  else ([.chatRoute text], st)

/-- The spec's pipeline states (§4.1).  This is specification
instrumentation, not program state: src/main.py stores no such value. -/
inductive Stage where
  | mainMenu
  | awaitingTicker
  | step1Done
  | step2Done
  | step3Done
  | finalDone
  deriving Repr, DecidableEq

/-- A system configuration: the program's per-user state plus the
spec-level pipeline stage. -/
structure Sys where
  bot : BotState
  stage : Stage
  deriving Repr, DecidableEq

/-- Inbound events, each carrying the oracles for the external calls the
handler may make.  Any event can arrive in any state: the transport
delivers button callbacks regardless of pipeline position (stale inline
keyboards from earlier messages remain pressable). -/
inductive Event where
  | analyzeAction
  | chatAction
  | freeText (text : Chars) (resolution : Except Chars StockData)
      (llm : Except Chars Chars)
  | step2Action (fin : Except Chars FinData) (llm : Except Chars Chars)
  | step3Action (fin : Except Chars FinData) (llm : Except Chars Chars)
  | finalAction (llm : Except Chars Chars)
  | backToMenu

def resOk : Except Chars StockData → Bool
  | .ok _ => true
  | .error _ => false

def finOk : Except Chars FinData → Bool
  | .ok _ => true
  | .error _ => false

def llmOk : Except Chars Chars → Bool
  | .ok _ => true
  | .error _ => false

/-- One event step: dispatch as `button_callback` / the message handler
does, and advance the spec-level stage when the corresponding pipeline
step completes successfully. -/
def runEvent (s : Sys) (e : Event) : Sys × List Effect :=
  match e with
  | .analyzeAction =>
    let r := analyze_stock_prompt s.bot
    (⟨r.2, .awaitingTicker⟩, r.1)
  | .chatAction =>
    (⟨{ s.bot with chatActive := true }, s.stage⟩, [])
  | .freeText text res llm =>
    let r := handle_user_message s.bot text res llm
    (⟨r.2, if s.bot.analyzeMode && resOk res && llmOk llm then .step1Done
      else s.stage⟩, r.1)
  | .step2Action fin llm =>
    let r := process_ai_analysis_step2 s.bot fin llm
    (⟨r.2, if s.bot.stockData.isSome && finOk fin && llmOk llm then .step2Done
      else s.stage⟩, r.1)
  | .step3Action fin llm =>
    let r := process_ai_analysis_step3 s.bot fin llm
    (⟨r.2, if s.bot.stockData.isSome && finOk fin && llmOk llm then .step3Done
      else s.stage⟩, r.1)
  | .finalAction llm =>
    let r := process_final_analysis_step s.bot llm
    (⟨r.2, if s.bot.stockData.isSome && llmOk llm then .finalDone else s.stage⟩, r.1)
  | .backToMenu =>
    let r := back_to_menu_action s.bot
    (⟨r.2, .mainMenu⟩, r.1)

/-- The initial configuration: fresh user, main menu. -/
def initSys : Sys := ⟨⟨false, none, false⟩, .mainMenu⟩

/-- Run a sequence of events from the initial configuration. -/
def runTrace (es : List Event) : Sys :=
  es.foldl (fun s e => (runEvent s e).1) initSys

/-- A configuration reachable by some event sequence. -/
def Reachable (s : Sys) : Prop := ∃ es, runTrace es = s

/-- Claim C8 counterexample: when the step-1 model call fails, the
returned dictionary is `{'success': False, 'error': ...}` only — the
stock's name and ticker were available to the call (here `Foo` /
`FOO.NS`) yet are absent from the failure result, so the caller cannot
label the error with the stock's identity. -/
theorem claim_C8_failure_labeling_counterexample :
    (get_step1_overview_analysis ⟨"Foo".toList, "FOO.NS".toList⟩
        (.error "boom".toList)).2.success = false ∧
    (get_step1_overview_analysis ⟨"Foo".toList, "FOO.NS".toList⟩
        (.error "boom".toList)).2.error = some "boom".toList ∧
    (get_step1_overview_analysis ⟨"Foo".toList, "FOO.NS".toList⟩
        (.error "boom".toList)).2.stock_name = none ∧
    (get_step1_overview_analysis ⟨"Foo".toList, "FOO.NS".toList⟩
        (.error "boom".toList)).2.ticker = none :=
  ⟨rfl, rfl, rfl, rfl⟩

/-- Claim C8 (amended): when the language-model call fails, every
narration step returns a failure-tagged result carrying an error
description; steps 2, 3 and 4 preserve the stock's display name and
ticker, but step 1's failure result omits them even though both were
available to the call.  The formatter's failure branch labels the error
message with the stock identity exactly when both fields are present. -/
theorem claim_C8_failure_labeling :
    (∀ d e, (get_step1_overview_analysis d (.error e)).2 =
      ⟨false, none, some e, none, none⟩) ∧
    (∀ r n t e, (get_step2_financial_analysis r n t (.error e)).2 =
      ⟨false, none, some e, some n, some t⟩) ∧
    (∀ r n t e, (get_step3_financial_analysis r n t (.error e)).2 =
      ⟨false, none, some e, some n, some t⟩) ∧
    (∀ n t e, (get_final_summary_analysis n t (.error e)).2 =
      ⟨false, none, some e, some n, some t⟩) ∧
    (∀ n t e, format_ai_analysis ⟨false, none, some e, some n, some t⟩ =
      "‚ùå *Error*: Could not generate AI analysis".toList ++
        (" for ".toList ++ n ++ " (".toList ++ t ++ [')']) ++
        ". Details: ".toList ++ e) ∧
    (∀ e, format_ai_analysis ⟨false, none, some e, none, none⟩ =
      "‚ùå *Error*: Could not generate AI analysis".toList ++ [] ++
        ". Details: ".toList ++ e) :=
  ⟨fun d e => rfl, fun r n t e => rfl, fun r n t e => rfl, fun n t e => rfl,
   fun n t e => rfl, fun e => rfl⟩

/-- Claim C3: a step-2, step-3 or final-step action arriving for a user
with no stored stock record short-circuits to a guidance message
carrying a recovery control, leaves the state unchanged, and issues no
market-data fetch and no language-model call — the only effect is that
one message send. -/
theorem claim_C3_missing_context :
    (∀ st fin llm, st.stockData = none →
      process_ai_analysis_step2 st fin llm =
        ([.send "⚠️ Could not retrieve stock information for detailed analysis. Please try analyzing the stock again.".toList
            ["analyze"]], st)) ∧
    (∀ st fin llm, st.stockData = none →
      process_ai_analysis_step3 st fin llm =
        ([.send "⚠️ Could not retrieve stock information for Step 3 analysis. Please try analyzing the stock again.".toList
            ["analyze"]], st)) ∧
    (∀ st llm, st.stockData = none →
      process_final_analysis_step st llm =
        ([.send "⚠️ Sorry, I don't have the previous analysis data for this stock. Please start a new analysis.".toList
            ["analyze", "back_to_menu"]], st)) ∧
    (∀ st fin llm e, st.stockData = none →
      e ∈ (process_ai_analysis_step2 st fin llm).1 →
      ∀ text buttons, (e = .send text buttons → buttons = ["analyze"]) ∧
        (∀ t, e ≠ .fetchOverview t ∧ e ≠ .fetchDetailedFinancials t ∧
          e ≠ .fetchStep3Statements t) ∧
        (∀ h p, e ≠ .llmCall h p)) ∧
    (∀ st fin llm e, st.stockData = none →
      e ∈ (process_ai_analysis_step3 st fin llm).1 →
      (∀ t, e ≠ .fetchOverview t ∧ e ≠ .fetchDetailedFinancials t ∧
        e ≠ .fetchStep3Statements t) ∧ (∀ h p, e ≠ .llmCall h p)) ∧
    (∀ st llm e, st.stockData = none →
      e ∈ (process_final_analysis_step st llm).1 →
      (∀ t, e ≠ .fetchOverview t ∧ e ≠ .fetchDetailedFinancials t ∧
        e ≠ .fetchStep3Statements t) ∧ (∀ h p, e ≠ .llmCall h p)) := by
  have h2 : ∀ st fin llm, st.stockData = none →
      process_ai_analysis_step2 st fin llm =
        ([.send "⚠️ Could not retrieve stock information for detailed analysis. Please try analyzing the stock again.".toList
            ["analyze"]], st) := by
    intro st fin llm h
    obtain ⟨am, sd, ca⟩ := st
    cases h
    rfl
  have h3 : ∀ st fin llm, st.stockData = none →
      process_ai_analysis_step3 st fin llm =
        ([.send "⚠️ Could not retrieve stock information for Step 3 analysis. Please try analyzing the stock again.".toList
            ["analyze"]], st) := by
    intro st fin llm h
    obtain ⟨am, sd, ca⟩ := st
    cases h
    rfl
  have h4 : ∀ st llm, st.stockData = none →
      process_final_analysis_step st llm =
        ([.send "⚠️ Sorry, I don't have the previous analysis data for this stock. Please start a new analysis.".toList
            ["analyze", "back_to_menu"]], st) := by
    intro st llm h
    obtain ⟨am, sd, ca⟩ := st
    cases h
    rfl
  refine ⟨h2, h3, h4, ?_, ?_, ?_⟩
  · intro st fin llm e h hmem
    rw [h2 st fin llm h] at hmem
    rcases List.mem_cons.mp hmem with h1 | h1
    · subst h1
      exact fun text buttons =>
        ⟨fun he => by injection he with h1 h2; exact h2.symm,
         fun t => ⟨by simp, by simp, by simp⟩, fun hh p => by simp⟩
    · exact absurd h1 (List.not_mem_nil e)
  · intro st fin llm e h hmem
    rw [h3 st fin llm h] at hmem
    rcases List.mem_cons.mp hmem with h1 | h1
    · subst h1
      exact ⟨fun t => ⟨by simp, by simp, by simp⟩, fun hh p => by simp⟩
    · exact absurd h1 (List.not_mem_nil e)
  · intro st llm e h hmem
    rw [h4 st llm h] at hmem
    rcases List.mem_cons.mp hmem with h1 | h1
    · subst h1
      exact ⟨fun t => ⟨by simp, by simp, by simp⟩, fun hh p => by simp⟩
    · exact absurd h1 (List.not_mem_nil e)

/-- Claim C3 witness: the guidance short-circuits applied at the fresh
state with a failing fetch oracle. -/
theorem claim_C3_missing_context_witness :
    process_ai_analysis_step2 ⟨false, none, false⟩ (.error "x".toList)
        (.error "y".toList) =
      ([.send "⚠️ Could not retrieve stock information for detailed analysis. Please try analyzing the stock again.".toList
          ["analyze"]], ⟨false, none, false⟩) ∧
    process_final_analysis_step ⟨false, none, false⟩ (.error "y".toList) =
      ([.send "⚠️ Sorry, I don't have the previous analysis data for this stock. Please start a new analysis.".toList
          ["analyze", "back_to_menu"]], ⟨false, none, false⟩) :=
  ⟨claim_C3_missing_context.1 ⟨false, none, false⟩ (.error "x".toList)
      (.error "y".toList) rfl,
   claim_C3_missing_context.2.2.1 ⟨false, none, false⟩ (.error "y".toList) rfl⟩

/-- Every delivered chunk is a message send. -/
theorem deliverChunked_send (text : Chars) (btns : List String) (e : Effect)
    (h : e ∈ deliverChunked text btns) : ∃ c b, e = .send c b := by
  obtain ⟨c, hc, he⟩ := List.mem_map.mp h
  exact ⟨c.1, if c.2 then btns else [], he.symm⟩

/-- The stage-gating property claim C9 asserts of the code: in every
reachable configuration, the step-3 action performs its balance-sheet/
cash-flow fetch only from the `STEP2_DONE` stage, and the step-2 action
performs its income-statement fetch only from `STEP1_DONE`. -/
def stageGatingClaim : Prop :=
  (∀ s : Sys, Reachable s → ∀ fin llm t,
    Effect.fetchStep3Statements t ∈ (runEvent s (.step3Action fin llm)).2 →
    s.stage = .step2Done) ∧
  (∀ s : Sys, Reachable s → ∀ fin llm t,
    Effect.fetchDetailedFinancials t ∈ (runEvent s (.step2Action fin llm)).2 →
    s.stage = .step1Done)

/-- Claim C9 counterexample: the reachable configuration obtained by
starting an analysis and completing only step 1 (stage `STEP1_DONE`,
stock record stored) still performs the balance-sheet/cash-flow fetch
when a step-3 action arrives — the code gates the fetch on the stored
stock record only, never on the pipeline stage, so the claimed gating
is false. -/
theorem claim_C9_stage_gating_counterexample : ¬ stageGatingClaim := by
  intro h
  have hstage : (runTrace [Event.analyzeAction,
      Event.freeText "foo".toList (.ok ⟨"Foo".toList, "FOO.NS".toList⟩)
        (.ok "A1".toList)]).stage = .step1Done := by decide
  have hmem : Effect.fetchStep3Statements "FOO.NS".toList ∈
      (runEvent (runTrace [Event.analyzeAction,
          Event.freeText "foo".toList (.ok ⟨"Foo".toList, "FOO.NS".toList⟩)
            (.ok "A1".toList)])
        (.step3Action (.ok ⟨"R".toList, "Foo".toList⟩) (.ok "A3".toList))).2 := by
    decide
  have h2 := h.1 _ ⟨_, rfl⟩ _ _ _ hmem
  exact Stage.noConfusion (hstage.symm.trans h2)

/-- Claim C9 (amended): the step-2 and step-3 actions perform their
fetches whenever a stock record is stored — in any stage, including
`STEP1_DONE` — and never when no record is stored; the pipeline stage
itself is not consulted. -/
theorem claim_C9_stage_gating :
    (∀ (bot : BotState) (stage : Stage) (d : StockData) fin llm,
      bot.stockData = some d →
      Effect.fetchStep3Statements d.ticker ∈
        (runEvent ⟨bot, stage⟩ (.step3Action fin llm)).2 ∧
      Effect.fetchDetailedFinancials d.ticker ∈
        (runEvent ⟨bot, stage⟩ (.step2Action fin llm)).2) ∧
    (∀ (bot : BotState) (stage : Stage) fin llm t,
      bot.stockData = none →
      Effect.fetchStep3Statements t ∉
        (runEvent ⟨bot, stage⟩ (.step3Action fin llm)).2 ∧
      Effect.fetchDetailedFinancials t ∉
        (runEvent ⟨bot, stage⟩ (.step2Action fin llm)).2) := by
  constructor
  · intro bot stage d fin llm hd
    obtain ⟨am, sd, ca⟩ := bot
    cases hd
    constructor
    · cases fin <;>
        simp [runEvent, process_ai_analysis_step3, List.mem_append]
    · cases fin <;>
        simp [runEvent, process_ai_analysis_step2, List.mem_append]
  · intro bot stage fin llm t hd
    obtain ⟨am, sd, ca⟩ := bot
    cases hd
    constructor
    · simp [runEvent, process_ai_analysis_step3]
    · simp [runEvent, process_ai_analysis_step2]

/-- Claim C9 amended witness: from a configuration in stage `STEP1_DONE`
with a stored record, the step-3 action fetches; from the fresh state it
does not. -/
theorem claim_C9_stage_gating_witness :
    Effect.fetchStep3Statements "FOO.NS".toList ∈
      (runEvent ⟨⟨true, some ⟨"Foo".toList, "FOO.NS".toList⟩, false⟩, .step1Done⟩
        (.step3Action (.error "x".toList) (.error "y".toList))).2 ∧
    Effect.fetchStep3Statements "FOO.NS".toList ∉
      (runEvent ⟨⟨false, none, false⟩, .mainMenu⟩
        (.step3Action (.error "x".toList) (.error "y".toList))).2 :=
  ⟨(claim_C9_stage_gating.1 ⟨true, some ⟨"Foo".toList, "FOO.NS".toList⟩, false⟩
      .step1Done ⟨"Foo".toList, "FOO.NS".toList⟩ (.error "x".toList)
      (.error "y".toList) rfl).1,
   (claim_C9_stage_gating.2 ⟨false, none, false⟩ .mainMenu (.error "x".toList)
      (.error "y".toList) "FOO.NS".toList rfl).1⟩

/-- Claim C2: the final pipeline step issues no structured market-data
fetch for the stored ticker — and its single language-model call is a
fresh one-shot completion whose history is empty and whose prompt is the
constant `FINAL_SUMMARY_ANALYSIS_PROMPT`: no session carrying the prior
steps' analysis turns exists, so the summary cannot draw on the step-1..3
texts.  (`generate_content_async` on the shared `GenerativeModel` retains
no conversation; the `.format` call is the identity on this template.) -/
theorem claim_C2_final_step :
    ∀ (st : BotState) (d : StockData) (llm : Except Chars Chars),
      st.stockData = some d →
      (∀ t, Effect.fetchOverview t ∉ (process_final_analysis_step st llm).1 ∧
        Effect.fetchDetailedFinancials t ∉ (process_final_analysis_step st llm).1 ∧
        Effect.fetchStep3Statements t ∉ (process_final_analysis_step st llm).1) ∧
      Effect.llmCall [] FINAL_SUMMARY_ANALYSIS_PROMPT ∈
        (process_final_analysis_step st llm).1 ∧
      (∀ hist p, Effect.llmCall hist p ∈ (process_final_analysis_step st llm).1 →
        hist = [] ∧ p = FINAL_SUMMARY_ANALYSIS_PROMPT) := by
  intro st d llm hd
  obtain ⟨am, sd, ca⟩ := st
  cases hd
  have heff : (process_final_analysis_step ⟨am, some d, ca⟩ llm).1 =
      [.send ("🤖 Generating final AI summary for ".toList ++ d.name ++ " (".toList ++
        d.ticker ++ ")... Please wait. This might take a moment. ⏳".toList) []] ++
      [.llmCall [] FINAL_SUMMARY_ANALYSIS_PROMPT] ++
      deliverChunked (format_ai_analysis
        (get_final_summary_analysis d.name d.ticker llm).2) ["back_to_menu"] := rfl
  refine ⟨?_, ?_, ?_⟩
  · intro t
    rw [heff]
    refine ⟨?_, ?_, ?_⟩ <;> intro hmem <;>
      rcases List.mem_append.mp hmem with h1 | h1
    · rcases List.mem_append.mp h1 with h2 | h2 <;> simp_all
    · obtain ⟨c, b, he⟩ := deliverChunked_send _ _ _ h1
      exact Effect.noConfusion he
    · rcases List.mem_append.mp h1 with h2 | h2 <;> simp_all
    · obtain ⟨c, b, he⟩ := deliverChunked_send _ _ _ h1
      exact Effect.noConfusion he
    · rcases List.mem_append.mp h1 with h2 | h2 <;> simp_all
    · obtain ⟨c, b, he⟩ := deliverChunked_send _ _ _ h1
      exact Effect.noConfusion he
  · rw [heff]
    exact List.mem_append.mpr (Or.inl (List.mem_append.mpr (Or.inr
      (List.mem_singleton.mpr rfl))))
  · intro hist p hmem
    rw [heff] at hmem
    rcases List.mem_append.mp hmem with h1 | h1
    · rcases List.mem_append.mp h1 with h2 | h2
      · simp at h2
      · rcases List.mem_singleton.mp h2 with h3
        injection h3 with h4 h5
        exact ⟨h4, h5⟩
    · obtain ⟨c, b, he⟩ := deliverChunked_send _ _ _ h1
      exact Effect.noConfusion he

/-- Claim C2 witness: the final step at a stored record issues the
one-shot constant-prompt call with empty history and no fetch. -/
theorem claim_C2_final_step_witness :
    Effect.llmCall [] FINAL_SUMMARY_ANALYSIS_PROMPT ∈
      (process_final_analysis_step
        ⟨false, some ⟨"Foo".toList, "FOO.NS".toList⟩, false⟩
        (.ok "done".toList)).1 ∧
    Effect.fetchStep3Statements "FOO.NS".toList ∉
      (process_final_analysis_step
        ⟨false, some ⟨"Foo".toList, "FOO.NS".toList⟩, false⟩
        (.ok "done".toList)).1 :=
  ⟨(claim_C2_final_step ⟨false, some ⟨"Foo".toList, "FOO.NS".toList⟩, false⟩
      ⟨"Foo".toList, "FOO.NS".toList⟩ (.ok "done".toList) rfl).2.1,
   ((claim_C2_final_step ⟨false, some ⟨"Foo".toList, "FOO.NS".toList⟩, false⟩
      ⟨"Foo".toList, "FOO.NS".toList⟩ (.ok "done".toList) rfl).1
      "FOO.NS".toList).2.2⟩

/-- Claim C10: after a successful step-1 analysis the analyze-mode flag
remains set, so subsequent free text is routed to ticker resolution (a
new overview fetch is issued and the chat handler is never invoked);
starting from a state with the flag set, the flag becomes unset after an
event exactly when that event is back-to-menu or a step-2 action that
runs to completion (stored record present and financials fetch
successful); and with the flag unset, free text is routed to the chat
handler with no other effect. -/
theorem claim_C10_analyze_mode :
    (∀ st text res llm, st.analyzeMode = true →
      (handle_user_message st text res llm).2.analyzeMode = true ∧
      Effect.fetchOverview (normalizeTicker text) ∈
        (handle_user_message st text res llm).1 ∧
      (∀ t, Effect.chatRoute t ∉ (handle_user_message st text res llm).1)) ∧
    (∀ (sys : Sys) (e : Event), sys.bot.analyzeMode = true →
      ((runEvent sys e).1.bot.analyzeMode = false ↔
        (e = .backToMenu ∨ ∃ fin llm, e = .step2Action fin llm ∧
          sys.bot.stockData.isSome = true ∧ finOk fin = true))) ∧
    (∀ st text res llm, st.analyzeMode = false →
      handle_user_message st text res llm = ([.chatRoute text], st)) := by
  refine ⟨?_, ?_, ?_⟩
  · intro st text res llm hm
    have hroute : handle_user_message st text res llm =
        handle_stock_analysis st text res llm := by
      unfold handle_user_message
      rw [if_pos hm]
    rw [hroute]
    cases res with
    | error e =>
      refine ⟨by simp [handle_stock_analysis, hm], ?_, ?_⟩
      · simp [handle_stock_analysis]
      · intro t
        simp [handle_stock_analysis]
    | ok d =>
      refine ⟨by simp [handle_stock_analysis, hm], ?_, ?_⟩
      · simp [handle_stock_analysis]
      · intro t
        simp [handle_stock_analysis, get_step1_overview_analysis]
  · intro sys e hm
    obtain ⟨⟨am, sd, ca⟩, stage⟩ := sys
    simp only at hm
    subst hm
    cases e with
    | analyzeAction =>
      simp [runEvent, analyze_stock_prompt]
    | chatAction =>
      simp [runEvent]
    | freeText text res llm =>
      cases res with
      | error e =>
        simp [runEvent, handle_user_message, handle_stock_analysis]
      | ok d =>
        simp [runEvent, handle_user_message, handle_stock_analysis]
    | step2Action fin llm =>
      cases sd with
      | none =>
        cases fin <;>
          simp [runEvent, process_ai_analysis_step2, finOk]
      | some d =>
        cases fin with
        | error e =>
          simp [runEvent, process_ai_analysis_step2, finOk]
        | ok f =>
          simp [runEvent, process_ai_analysis_step2, finOk]
    | step3Action fin llm =>
      cases sd with
      | none =>
        cases fin <;> simp [runEvent, process_ai_analysis_step3]
      | some d =>
        cases fin <;> simp [runEvent, process_ai_analysis_step3]
    | finalAction llm =>
      cases sd with
      | none => simp [runEvent, process_final_analysis_step]
      | some d => simp [runEvent, process_final_analysis_step]
    | backToMenu =>
      simp [runEvent, back_to_menu_action]
  · intro st text res llm hm
    unfold handle_user_message
    rw [if_neg (by rw [hm]; exact Bool.false_ne_true)]

/-- Claim C10 witness: the routing clauses at concrete states. -/
theorem claim_C10_analyze_mode_witness :
    Effect.fetchOverview "TCS.NS".toList ∈
      (handle_user_message ⟨true, some ⟨"Foo".toList, "FOO.NS".toList⟩, false⟩
        "tcs".toList (.error "x".toList) (.error "y".toList)).1 ∧
    handle_user_message ⟨false, none, false⟩ "hello".toList
        (.error "x".toList) (.error "y".toList) =
      ([.chatRoute "hello".toList], ⟨false, none, false⟩) ∧
    ((runEvent ⟨⟨true, some ⟨"Foo".toList, "FOO.NS".toList⟩, false⟩, .step1Done⟩
        .backToMenu).1.bot.analyzeMode = false ↔ True) := by
  refine ⟨?_, ?_, ?_⟩
  · have h := (claim_C10_analyze_mode.1
      ⟨true, some ⟨"Foo".toList, "FOO.NS".toList⟩, false⟩ "tcs".toList
      (.error "x".toList) (.error "y".toList) rfl).2.1
    have hn : normalizeTicker "tcs".toList = "TCS.NS".toList := by decide
    rw [hn] at h
    exact h
  · exact claim_C10_analyze_mode.2.2 ⟨false, none, false⟩ "hello".toList
      (.error "x".toList) (.error "y".toList) rfl
  · have h := claim_C10_analyze_mode.2.1
      ⟨⟨true, some ⟨"Foo".toList, "FOO.NS".toList⟩, false⟩, .step1Done⟩
      .backToMenu rfl
    rw [h]
    simp

end PocketProfits

